import Mathlib

/-!
Verification of the FlipTrackr "Flip Ledger Engine": the totals calculator,
the quick-entry line-item parser with its embedded arithmetic evaluator, and
the tax-report generators.  Monetary values are modelled as rationals; the
stateful wrappers (database reads, clock reads) are embedded by passing the
read values as explicit arguments.
-/

/-- Expense category of a line item (`'parts' | 'labor' | 'fees' | 'misc'`). -/
inductive Cat where
  | parts
  | labor
  | fees
  | misc
deriving DecidableEq, Repr

/-- Source string of a category tag, as stored in the database. -/
def catName : Cat → String
  | .parts => "parts"
  | .labor => "labor"
  | .fees => "fees"
  | .misc => "misc"

/-- A flip record (one vehicle transaction), mirroring the `Flip` interface. -/
structure Flip where
  id : Nat
  year : Option Nat
  make : Option String
  model : Option String
  vin : Option String
  miles : Option Nat
  buy_price : ℚ
  sell_price : Option ℚ
  sold_date : Option String
  created_at : String
  updated_at : String
deriving DecidableEq, Repr

/-- A line item (one expense), mirroring the `LineItem` interface. -/
structure LineItem where
  id : Nat
  flip_id : Nat
  title : String
  amount : ℚ
  category : Option Cat
  date : Option String
  created_at : String
  updated_at : String
deriving DecidableEq, Repr

/-- Derived totals of a flip, mirroring the `FlipTotals` interface. -/
structure FlipTotals where
  totalCost : ℚ
  profit : ℚ
  roi : ℚ
deriving DecidableEq, Repr

/-- The pure core of `computeTotals` (database module): given the flip row and
its line items (the two database reads, passed explicitly), compute the
derived totals.  The `Flip not found` throw happens before this core runs and
is the caller's concern. -/
def computeTotals (flip : Flip) (lineItems : List LineItem) : FlipTotals :=
  let totalCost := lineItems.foldl (fun sum item => sum + item.amount) 0
  let sellPrice := flip.sell_price.getD 0
  let profit := sellPrice - (flip.buy_price + totalCost)
  let investedAmount := flip.buy_price + totalCost
  let roi := if investedAmount > 0 then profit / investedAmount else 0
  { totalCost := totalCost, profit := profit, roi := roi }

/-- The pure core of `computeWhatIfTotals` (FlipSheet screen): the hypothetical
sell price, the buy price and the previously computed total cost arrive as
already-resolved numbers (the surrounding lines only resolve UI strings and
fallbacks to produce them). -/
def computeWhatIfTotals (whatIfSellPriceNum buyPriceNum totalCost : ℚ) : FlipTotals :=
  let profit := whatIfSellPriceNum - (buyPriceNum + totalCost)
  let investedAmount := buyPriceNum + totalCost
  let roi := if investedAmount > 0 then profit / investedAmount else 0
  { totalCost := totalCost, profit := profit, roi := roi }

/-! ## Quick-entry parser (`parseLineItem.ts`)

Strings are processed as `List Char`.  JavaScript `\s` is modelled by the
ASCII whitespace characters that can reach this code. -/

/-- Characters matched by the JavaScript `\s` class (ASCII part). -/
def isSpaceChar (c : Char) : Bool :=
  c == ' ' || c == '\t' || c == '\n' || c == '\r' || c == '\x0b' || c == '\x0c'

/-- Characters of the arithmetic alphabet `[0-9+\-*/.]`. -/
def isMathChar (c : Char) : Bool :=
  c.isDigit || c == '+' || c == '-' || c == '*' || c == '/' || c == '.'

/-- Characters of the numeric-segment class `[0-9+\-*/.\s]`. -/
def isClass1 (c : Char) : Bool := isMathChar c || isSpaceChar c

/-- The additive operators `[+\-]`. -/
def isAddOp (c : Char) : Bool := c == '+' || c == '-'

/-- The multiplicative operators `[*/]`. -/
def isMulOp (c : Char) : Bool := c == '*' || c == '/'

/-- Characters matched by the regex dot (anything but a line terminator). -/
def notNL (c : Char) : Bool := c != '\n' && c != '\r'

/-- JavaScript `String.prototype.trim`. -/
def trimChars (l : List Char) : List Char :=
  ((l.dropWhile isSpaceChar).reverse.dropWhile isSpaceChar).reverse

/-- JavaScript `String.split` on a regex that is one captured separator
character: alternating segments and separators, with empty segments kept, so
the result always has odd length. -/
def splitKeep (isSep : Char → Bool) : List Char → List (List Char)
  | [] => [[]]
  | c :: rest =>
    if isSep c then
      [] :: [c] :: splitKeep isSep rest
    else
      match splitKeep isSep rest with
      | s :: ss => (c :: s) :: ss
      | [] => [[c]]

/-- Value of a digit string, most significant first. -/
def digitsToNat (l : List Char) : ℕ := l.foldl (fun a c => 10 * a + (c.toNat - 48)) 0

/-- JavaScript `parseFloat` restricted to strings over digits and `'.'` (the
only characters that can reach it here): the longest prefix of shape
`digits [. digits]` is converted, anything after it is ignored, and `NaN`
(no digit in the prefix) becomes `none`.  The value is exact: IEEE doubles
round it and overflow to `Infinity` at roughly `1.8e308`, so this model is
faithful only below that bound — `parseLineItem_overflow_unguarded` makes
the divergence explicit by showing the parser accepts arbitrarily large
values, which is exactly where the real `parseFloat` produces a non-finite
amount that the code never rejects. -/
def parseFloatQ (s : List Char) : Option ℚ :=
  let intPart := s.takeWhile Char.isDigit
  let rest := s.dropWhile Char.isDigit
  match rest with
  | '.' :: rest2 =>
    let fracPart := rest2.takeWhile Char.isDigit
    if intPart.isEmpty && fracPart.isEmpty then none
    else some ((digitsToNat intPart : ℚ) +
      (digitsToNat fracPart : ℚ) / 10 ^ fracPart.length)
  | _ => if intPart.isEmpty then none else some (digitsToNat intPart : ℚ)

/-- The loop of `evaluateMultiplyDivide`: pairs of operator and operand tokens
folded left-to-right onto the accumulated result.  A trailing unpaired
operator indexes past the array (`parseFloat(undefined)` is `NaN`), so it
fails. -/
def emdLoop : List (List Char) → ℚ → Option ℚ
  | [], result => some result
  | [_], _ => none
  | op :: t :: rest, result =>
    match parseFloatQ t with
    | none => none
    | some value =>
      if op = ['*'] then emdLoop rest (result * value)
      else if op = ['/'] then
        if value = 0 then none else emdLoop rest (result / value)
      else emdLoop rest result

/-- `evaluateMultiplyDivide`: split on `*`/`/` (separators kept), parse the
first token, then fold the operator/operand pairs; division by zero fails. -/
def evaluateMultiplyDivide (expression : List Char) : Option ℚ :=
  match splitKeep isMulOp expression with
  | [] => none
  | t0 :: rest =>
    match parseFloatQ t0 with
    | none => none
    | some result => emdLoop rest result

/-- The loop of `evaluateMath`: separator tokens update the current operator,
other tokens are evaluated multiplicatively and added or subtracted. -/
def emLoop : List (List Char) → Char → ℚ → Option ℚ
  | [], _, result => some result
  | t :: ts, currentOp, result =>
    if t = ['+'] then emLoop ts '+' result
    else if t = ['-'] then emLoop ts '-' result
    else
      match evaluateMultiplyDivide t with
      | none => none
      | some value =>
        emLoop ts currentOp (if currentOp = '+' then result + value else result - value)

/-- `Math.round(x * 100) / 100`: round half toward positive infinity after
scaling by 100. -/
def round2 (q : ℚ) : ℚ := (⌊q * 100 + 1 / 2⌋ : ℚ) / 100

/-- `evaluateMath`: strip all whitespace, require the result to be a nonempty
string over the arithmetic alphabet, split on `+`/`-`, fold the tokens with
the running operator starting from `0` and `'+'`, and round the result to two
decimal places. -/
def evaluateMath (expression : List Char) : Option ℚ :=
  let cleaned := expression.filter (fun c => !isSpaceChar c)
  if cleaned.isEmpty || !cleaned.all isMathChar then none
  else
    match emLoop (splitKeep isAddOp cleaned) '+' 0 with
    | none => none
    | some result => some (round2 result)

/-- First `some` produced by `f` along the list, in order. -/
def firstSome {α β : Type} (l : List α) (f : α → Option β) : Option β :=
  match l with
  | [] => none
  | a :: rest =>
    match f a with
    | some b => some b
    | none => firstSome rest f

/-- Backtracking choices of a greedy `X*` atom over the character class `p`:
remainders of the input after consuming the maximal run, the run minus one
character, ..., nothing — in the order a backtracking regex engine tries
them. -/
def starSplits (p : Char → Bool) (s : List Char) : List (List Char) :=
  let m := (s.takeWhile p).length
  (List.range (m + 1)).map (fun i => s.drop (m - i))

/-- Backtracking choices of a greedy `(X+)` atom over the character class `p`:
pairs of captured run and remainder, longest run first, shortest (one
character) last. -/
def plusSplits (p : Char → Bool) (s : List Char) : List (List Char × List Char) :=
  let m := (s.takeWhile p).length
  (List.range m).map (fun i => (s.take (m - i), s.drop (m - i)))

/-- Pattern 1, `^\$?\s*([0-9+\-*/.\s]+)\s*-\s*(.+)$`: greedy backtracking
matcher returning the two captured groups. -/
def matchPattern1 (s : List Char) : Option (List Char × List Char) :=
  let starts : List (List Char) :=
    match s with
    | '$' :: rest => [rest, s]
    | _ => [s]
  firstSome starts (fun s1 =>
    firstSome (starSplits isSpaceChar s1) (fun s2 =>
      firstSome (plusSplits isClass1 s2) (fun g =>
        firstSome (starSplits isSpaceChar g.2) (fun s4 =>
          match s4 with
          | '-' :: s5 =>
            firstSome (starSplits isSpaceChar s5) (fun s6 =>
              if s6 ≠ [] ∧ s6.all notNL then some (g.1, s6) else none)
          | _ => none))))

/-- Pattern 2, `^([0-9+\-*/.\s]+)\s+(.+)$`. -/
def matchPattern2 (s : List Char) : Option (List Char × List Char) :=
  firstSome (plusSplits isClass1 s) (fun g =>
    firstSome (plusSplits isSpaceChar g.2) (fun w =>
      if w.2 ≠ [] ∧ w.2.all notNL then some (g.1, w.2) else none))

/-- Pattern 3, `^([0-9+\-*/.\s]+)(.*)$`. -/
def matchPattern3 (s : List Char) : Option (List Char × List Char) :=
  firstSome (plusSplits isClass1 s) (fun g =>
    if g.2.all notNL then some (g.1, g.2) else none)

/-- Result of `parseLineItem`: either a parsed line item or an error value. -/
inductive ParseResult where
  | ok (amount : ℚ) (title : String)
  | err (msg : String)
deriving DecidableEq, Repr

/-- Shared branch body of patterns 1 and 2: trim the groups, reject an empty
title, evaluate the amount, and reject a null or non-positive amount. -/
def patternResult (g : List Char × List Char) : ParseResult :=
  let amountStr := trimChars g.1
  let title := trimChars g.2
  if title = [] then .err "Title cannot be empty"
  else
    match evaluateMath amountStr with
    | none => .err "Invalid amount"
    | some amount =>
      if amount ≤ 0 then .err "Invalid amount" else .ok amount (String.mk title)

/-- Branch body of pattern 3: an empty trimmed title defaults to `Expense`. -/
def pattern3Result (g : List Char × List Char) : ParseResult :=
  let amountStr := trimChars g.1
  let title := if trimChars g.2 = [] then "Expense".data else trimChars g.2
  match evaluateMath amountStr with
  | none => .err "Invalid amount"
  | some amount =>
    if amount ≤ 0 then .err "Invalid amount" else .ok amount (String.mk title)

/-- `parseLineItem`: trim, reject empty input, then try the three grammars in
order, first match winning. -/
def parseLineItem (input : String) : ParseResult :=
  let trimmed := trimChars input.data
  if trimmed = [] then .err "Input cannot be empty"
  else
    match matchPattern1 trimmed with
    | some g => patternResult g
    | none =>
      match matchPattern2 trimmed with
      | some g => patternResult g
      | none =>
        match matchPattern3 trimmed with
        | some g => pattern3Result g
        | none => .err "Could not parse input. Try format: $190 - description"

/-! ## Report generators (`taxExport` module and the Settings screen)

The generators read the clock (`new Date().toLocaleDateString()`); that read
is embedded as an explicit `today` argument. -/

/-- Modelled from the spec: `formatCurrency` lives in `utils/currency.ts`,
which is not part of the sources; per the spec it renders a monetary value
with a leading dollar sign ("for currency cells, a leading currency symbol is
stripped in the detail sections, present in the summary display string").
The digits are modelled as the reduced-fraction rendering. -/
def formatCurrency (q : ℚ) : String :=
  "$" ++ (if q.den = 1 then toString q.num
    else toString q.num ++ "/" ++ toString q.den)

/-- Modelled from the spec: `toLocaleDateString` renders a stored timestamp in
an unspecified locale-dependent format; modelled as the stored string
itself. -/
def locDate (s : String) : String := s

/-- Modelled from the spec: `Number.toLocaleString` for the odometer miles;
modelled as plain decimal rendering. -/
def natLoc (n : ℕ) : String := toString n

/-- Modelled from the spec: `toFixed(2)` ("ROI as a percentage to 2
decimals"). -/
def toFixed2 (q : ℚ) : String :=
  let n : ℤ := ⌊q * 100 + 1 / 2⌋
  (if n < 0 then "-" else "") ++ toString (n.natAbs / 100) ++ "." ++
    (if n.natAbs % 100 < 10 then "0" ++ toString (n.natAbs % 100)
     else toString (n.natAbs % 100))

/-- JavaScript truthiness of an optional string (`undefined` and `""` are
falsy). -/
def truthyStr (o : Option String) : Option String :=
  match o with
  | some s => if s = "" then none else some s
  | none => none

/-- `opt || fallback` for an optional string. -/
def strOr (o : Option String) (d : String) : String := (truthyStr o).getD d

/-- `[flip.year, flip.make, flip.model].filter(Boolean).join(' ') ||
fallback`. -/
def displayNameOr (fallback : String) (flip : Flip) : String :=
  let parts :=
    (match flip.year with
     | some y => if y ≠ 0 then [toString y] else []
     | none => []) ++
    (match flip.make with
     | some s => if s ≠ "" then [s] else []
     | none => []) ++
    (match flip.model with
     | some s => if s ≠ "" then [s] else []
     | none => [])
  if parts = [] then fallback else String.intercalate " " parts

/-- `flip.miles ? flip.miles.toLocaleString() : 'Not provided'` (zero miles is
falsy). -/
def milesStr (o : Option ℕ) : String :=
  match o with
  | some m => if m ≠ 0 then natLoc m else "Not provided"
  | none => "Not provided"

/-- `item.date ? new Date(item.date).toLocaleDateString() : fallback`. -/
def itemDateOr (d : String) (item : LineItem) : String :=
  match truthyStr item.date with
  | some x => locDate x
  | none => d

/-- `'c'.repeat(n)`. -/
def repeatChar (c : Char) (n : ℕ) : String := String.mk (List.replicate n c)

/-- `s.charAt(0).toUpperCase() + s.slice(1)`. -/
def capFirst (s : String) : String :=
  match s.data with
  | [] => ""
  | c :: cs => String.mk (c.toUpper :: cs)

/-- `s.toUpperCase()`. -/
def strUpper (s : String) : String := String.mk (s.data.map Char.toUpper)

/-- The fixed category order `['parts', 'labor', 'fees', 'misc']`. -/
def taxCategories : List Cat := [.parts, .labor, .fees, .misc]

/-- `lineItems.filter(item => item.category === category)`. -/
def categoryFilter (c : Cat) (items : List LineItem) : List LineItem :=
  items.filter (fun item => item.category = some c)

/-- `lineItems.filter(item => !item.category)`. -/
def uncategorizedFilter (items : List LineItem) : List LineItem :=
  items.filter (fun item => item.category = none)

/-- `items.reduce((sum, item) => sum + item.amount, 0)`. -/
def sumAmounts (items : List LineItem) : ℚ :=
  items.foldl (fun sum item => sum + item.amount) 0

/-- Input of the single-flip tax report. -/
structure TaxExportData where
  flip : Flip
  lineItems : List LineItem
  totals : FlipTotals
  taxYear : ℕ
deriving DecidableEq, Repr

/-- One row of the itemized expense listing; the label is the category name
(the loop's `category || 'misc'` is the category itself, the four names being
nonempty) or the literal `misc` for uncategorized items. -/
def detailLine (c : String) (item : LineItem) : String :=
  c ++ "\t\t" ++ item.title ++ "\t\t" ++ formatCurrency item.amount ++ "\t\t" ++
    itemDateOr "Not specified" item ++ "\n"

/-- One category's rows of the itemized listing (the source guards the inner
loop with `categoryItems.length > 0`). -/
def categoryDetailBlock (items : List LineItem) (c : Cat) : String :=
  let categoryItems := categoryFilter c items
  if categoryItems.length > 0 then
    String.join (categoryItems.map (detailLine (catName c)))
  else ""

/-- Rows of the uncategorized items, printed under the `misc` label. -/
def uncatDetailBlock (items : List LineItem) : String :=
  String.join ((uncategorizedFilter items).map (detailLine "misc"))

/-- One category's subtotal line of the expense summary, printed only when the
category has at least one item. -/
def categorySummaryLine (items : List LineItem) (c : Cat) : String :=
  let categoryItems := categoryFilter c items
  if categoryItems.length > 0 then
    capFirst (catName c) ++ ": " ++ formatCurrency (sumAmounts categoryItems) ++ "\n"
  else ""

/-- The `Miscellaneous` subtotal line, printed only when the uncategorized
total is positive. -/
def miscSummaryLine (items : List LineItem) : String :=
  let uncategorizedTotal := sumAmounts (uncategorizedFilter items)
  if uncategorizedTotal > 0 then
    "Miscellaneous: " ++ formatCurrency uncategorizedTotal ++ "\n"
  else ""

/-- The `DETAILED EXPENSES` section of the single-flip tax report. -/
def detailedExpensesSection (flip : Flip) (lineItems : List LineItem)
    (totals : FlipTotals) : String :=
  "DETAILED EXPENSES:\n" ++
  "Category\t\tDescription\t\t\tAmount\t\tDate\n" ++
  (repeatChar '=' 80 ++ "\n") ++
  ("Purchase\t\tVehicle Purchase\t\t" ++ formatCurrency flip.buy_price ++ "\t" ++
    locDate flip.created_at ++ "\n") ++
  String.join (taxCategories.map (categoryDetailBlock lineItems)) ++
  uncatDetailBlock lineItems ++
  (repeatChar '=' 80 ++ "\n") ++
  ("TOTAL EXPENSES: " ++ formatCurrency totals.totalCost ++ "\n") ++
  "\n"

/-- The `EXPENSE SUMMARY BY CATEGORY` section of the single-flip tax
report. -/
def expenseSummarySection (lineItems : List LineItem) : String :=
  "EXPENSE SUMMARY BY CATEGORY:\n" ++
  String.join (taxCategories.map (categorySummaryLine lineItems)) ++
  miscSummaryLine lineItems ++
  "\n"

/-- `generateTaxExportPDF`: the single-flip narrative tax report, with the
clock read passed as `today`. -/
def generateTaxExportPDF (data : TaxExportData) (today : String) : String :=
  let flip := data.flip
  let lineItems := data.lineItems
  let totals := data.totals
  let displayName := displayNameOr "Vehicle Flip" flip
  "TAX REPORT - VEHICLE FLIP\n" ++
  ("Generated: " ++ today ++ "\n") ++
  ("Tax Year: " ++ toString data.taxYear ++ "\n") ++
  (repeatChar '=' 33 ++ "\n\n") ++
  "VEHICLE INFORMATION:\n" ++
  ("Vehicle: " ++ displayName ++ "\n") ++
  ("VIN: " ++ strOr flip.vin "Not provided" ++ "\n") ++
  ("Miles: " ++ milesStr flip.miles ++ "\n") ++
  ("Purchase Date: " ++ locDate flip.created_at ++ "\n") ++
  (match truthyStr flip.sold_date with
   | some d => "Sale Date: " ++ locDate d ++ "\n"
   | none => "") ++
  "\n" ++
  "FINANCIAL SUMMARY:\n" ++
  ("Purchase Price: " ++ formatCurrency flip.buy_price ++ "\n") ++
  ("Sale Price: " ++ formatCurrency (flip.sell_price.getD 0) ++ "\n") ++
  ("Total Expenses: " ++ formatCurrency totals.totalCost ++ "\n") ++
  ("Total Investment: " ++ formatCurrency (flip.buy_price + totals.totalCost) ++ "\n") ++
  ("Gross Profit/Loss: " ++ formatCurrency totals.profit ++ "\n") ++
  ("ROI: " ++ toFixed2 (totals.roi * 100) ++ "%\n") ++
  "\n" ++
  "TAX IMPLICATIONS:\n" ++
  "Classification: Short-term Capital Gain/Loss (assuming held < 1 year)\n" ++
  ("Taxable Amount: " ++
    formatCurrency (if (truthyStr flip.sold_date).isSome then totals.profit else 0) ++
    "\n") ++
  "Note: Consult your tax professional for proper treatment\n" ++
  "\n" ++
  detailedExpensesSection flip lineItems totals ++
  expenseSummarySection lineItems ++
  "IMPORTANT NOTES:\n" ++
  "- This report is for tax preparation purposes\n" ++
  "- Consult with a qualified tax professional\n" ++
  "- Keep all receipts and supporting documentation\n" ++
  "- Vehicle flipping may require business license in some jurisdictions\n" ++
  "- Consider quarterly estimated tax payments for significant gains\n"

/-- One flip's data inside the aggregate report input. -/
structure FlipBundle where
  flip : Flip
  lineItems : List LineItem
  totals : FlipTotals
deriving DecidableEq, Repr

/-- The aggregate report's precomputed summary figures. -/
structure AllFlipsSummary where
  totalFlips : ℕ
  totalProfit : ℚ
  totalLoss : ℚ
  netGainLoss : ℚ
  totalExpenses : ℚ
  totalSales : ℚ
  totalPurchases : ℚ
deriving DecidableEq, Repr

/-- Input of the aggregate tax report. -/
structure AllFlipsTaxData where
  flips : List FlipBundle
  taxYear : ℕ
  summary : AllFlipsSummary
deriving DecidableEq, Repr

/-- One bullet row of a per-vehicle expense breakdown (date falls back to the
item's creation date). -/
def breakdownLine (item : LineItem) : String :=
  "  • " ++ item.title ++ ": " ++ formatCurrency item.amount ++ " (" ++
    itemDateOr (locDate item.created_at) item ++ ")\n"

/-- One category's block of a per-vehicle expense breakdown. -/
def categoryBreakBlock (items : List LineItem) (c : Cat) : String :=
  let categoryItems := categoryFilter c items
  if categoryItems.length > 0 then
    "\n" ++ strUpper (catName c) ++ ": " ++
      formatCurrency (sumAmounts categoryItems) ++ "\n" ++
      String.join (categoryItems.map breakdownLine)
  else ""

/-- The uncategorized block of a per-vehicle expense breakdown. -/
def uncatBreakBlock (items : List LineItem) : String :=
  let uncategorized := uncategorizedFilter items
  if uncategorized.length > 0 then
    "\nMISCELLANEOUS: " ++ formatCurrency (sumAmounts uncategorized) ++ "\n" ++
      String.join (uncategorized.map breakdownLine)
  else ""

/-- One vehicle's section of the aggregate report. -/
def vehicleSection (idx : ℕ) (b : FlipBundle) : String :=
  let flip := b.flip
  let lineItems := b.lineItems
  let totals := b.totals
  let displayName := displayNameOr ("Vehicle " ++ toString (idx + 1)) flip
  ("\nVEHICLE " ++ toString (idx + 1) ++ ": " ++ displayName ++ "\n") ++
  (repeatChar '-' 50 ++ "\n") ++
  ("Purchase Date: " ++ locDate flip.created_at ++ "\n") ++
  ("Sale Date: " ++
    (match truthyStr flip.sold_date with
     | some d => locDate d
     | none => "Not sold") ++ "\n") ++
  ("VIN: " ++ strOr flip.vin "Not provided" ++ "\n") ++
  ("Miles: " ++ milesStr flip.miles ++ "\n") ++
  "\nFINANCIALS:\n" ++
  ("Purchase Price: " ++ formatCurrency flip.buy_price ++ "\n") ++
  ("Sale Price: " ++ formatCurrency (flip.sell_price.getD 0) ++ "\n") ++
  ("Operating Expenses: " ++ formatCurrency totals.totalCost ++ "\n") ++
  ("Total Investment: " ++ formatCurrency (flip.buy_price + totals.totalCost) ++ "\n") ++
  ("Profit/Loss: " ++ formatCurrency totals.profit ++ "\n") ++
  ("ROI: " ++ toFixed2 (totals.roi * 100) ++ "%\n") ++
  (if lineItems.length > 0 then
    "\nEXPENSE BREAKDOWN:\n" ++
      String.join (taxCategories.map (categoryBreakBlock lineItems)) ++
      uncatBreakBlock lineItems
   else "") ++
  ("\n" ++ repeatChar '=' 80 ++ "\n")

/-- `allExpenses[category] = (allExpenses[category] || 0) + item.amount` over
a record with string keys kept in insertion order. -/
def upsertExpense (m : List (String × ℚ)) (k : String) (v : ℚ) :
    List (String × ℚ) :=
  if m.any (fun p => p.1 = k) then
    m.map (fun p => if p.1 = k then (p.1, p.2 + v) else p)
  else m ++ [(k, v)]

/-- `item.category || 'misc'`. -/
def catKey (item : LineItem) : String := catName (item.category.getD Cat.misc)

/-- The combined `allExpenses` record, accumulated flip by flip and item by
item. -/
def allExpensesMap (flips : List FlipBundle) : List (String × ℚ) :=
  flips.foldl
    (fun m b =>
      b.lineItems.foldl (fun m item => upsertExpense m (catKey item) item.amount) m)
    []

/-- The `COMBINED EXPENSE SUMMARY BY CATEGORY` section: the record's entries
in insertion order (`Object.entries`). -/
def combinedSummarySection (flips : List FlipBundle) : String :=
  "\nCOMBINED EXPENSE SUMMARY BY CATEGORY:\n" ++
  String.join ((allExpensesMap flips).map
    (fun p => capFirst p.1 ++ ": " ++ formatCurrency p.2 ++ "\n"))

/-- First-occurrence deduplication of a key list, with an accumulator of keys
already seen (used to state in which order the record's keys appear). -/
def dedupFirstAux (seen : List String) : List String → List String
  | [] => []
  | k :: rest =>
    if k ∈ seen then dedupFirstAux seen rest
    else k :: dedupFirstAux (k :: seen) rest

/-- `generateAllFlipsTaxReport`: the aggregate narrative tax report, with the
clock read passed as `today`. -/
def generateAllFlipsTaxReport (data : AllFlipsTaxData) (today : String) : String :=
  let flips := data.flips
  let summary := data.summary
  "COMPLETE TAX REPORT - ALL VEHICLE FLIPS\n" ++
  ("Generated: " ++ today ++ "\n") ++
  ("Tax Year: " ++ toString data.taxYear ++ "\n") ++
  (repeatChar '=' 65 ++ "\n\n") ++
  "EXECUTIVE SUMMARY:\n" ++
  ("Total Vehicles Flipped: " ++ toString summary.totalFlips ++ "\n") ++
  ("Total Sales Revenue: " ++ formatCurrency summary.totalSales ++ "\n") ++
  ("Total Purchase Cost: " ++ formatCurrency summary.totalPurchases ++ "\n") ++
  ("Total Operating Expenses: " ++ formatCurrency summary.totalExpenses ++ "\n") ++
  ("Net Gain/Loss: " ++ formatCurrency summary.netGainLoss ++ "\n") ++
  "\n" ++
  "TAX TREATMENT:\n" ++
  "Business Activity: Vehicle Flipping/Resale\n" ++
  "Classification: Short-term Capital Gains (vehicles typically held < 1 year)\n" ++
  "Schedule: Report on Schedule D (Capital Gains and Losses)\n" ++
  "Self-Employment: May require Schedule C if this is a business activity\n" ++
  "\n" ++
  "DETAILED VEHICLE-BY-VEHICLE BREAKDOWN:\n" ++
  (repeatChar '=' 80 ++ "\n") ++
  String.join (flips.enum.map (fun p => vehicleSection p.1 p.2)) ++
  combinedSummarySection flips ++
  "\nTAX PREPARATION CHECKLIST:\n" ++
  "□ Keep all purchase receipts and contracts\n" ++
  "□ Keep all sale receipts and contracts\n" ++
  "□ Keep all receipts for parts, labor, and fees\n" ++
  "□ Document any business mileage related to vehicle viewing/transport\n" ++
  "□ Consider if this activity requires a business license\n" ++
  "□ Determine if you need to make quarterly estimated tax payments\n" ++
  "□ Consult with a tax professional for proper classification\n" ++
  "□ Consider Schedule C filing if this is a regular business activity\n" ++
  "\nIMPORTANT TAX NOTES:\n" ++
  "• This report is for tax preparation purposes only\n" ++
  "• Vehicle flipping may be considered business income vs. capital gains\n" ++
  "• Consult with a qualified tax professional\n" ++
  "• Keep detailed records and receipts for all transactions\n" ++
  "• Consider sales tax obligations in your state\n" ++
  "• Some states require dealer licenses for multiple vehicle sales\n" ++
  "• Report all gains - the IRS may have records of vehicle sales\n"

/-- Accumulator of the summary loop in `exportCompleteTaxReport` (Settings
screen). -/
structure SummaryAcc where
  totalSales : ℚ
  totalPurchases : ℚ
  totalExpenses : ℚ
  totalProfit : ℚ
  totalLoss : ℚ
deriving DecidableEq, Repr

/-- One iteration of the summary loop: sales, purchases and expenses always
accumulate; a positive profit accumulates into total profit, otherwise its
absolute value accumulates into total loss. -/
def summaryStep (acc : SummaryAcc) (row : Flip × FlipTotals) : SummaryAcc :=
  { totalSales := acc.totalSales + row.1.sell_price.getD 0
    totalPurchases := acc.totalPurchases + row.1.buy_price
    totalExpenses := acc.totalExpenses + row.2.totalCost
    totalProfit :=
      if row.2.profit > 0 then acc.totalProfit + row.2.profit else acc.totalProfit
    totalLoss :=
      if row.2.profit > 0 then acc.totalLoss else acc.totalLoss + |row.2.profit| }

/-- The pure accumulation core of `exportCompleteTaxReport`: the summary
figures from the per-flip rows (each flip with its computed totals, in list
order). -/
def exportCompleteTaxReportSummary (rows : List (Flip × FlipTotals)) :
    AllFlipsSummary :=
  let acc := rows.foldl summaryStep ⟨0, 0, 0, 0, 0⟩
  { totalFlips := rows.length
    totalProfit := acc.totalProfit
    totalLoss := acc.totalLoss
    netGainLoss := acc.totalProfit - acc.totalLoss
    totalExpenses := acc.totalExpenses
    totalSales := acc.totalSales
    totalPurchases := acc.totalPurchases }

/-! ## Arithmetic expressions as structured values

To state what `evaluateMath` computes, arithmetic expressions over the
evaluator's alphabet are described structurally: a decimal literal, a
multiplicative chain of literals, and an additive chain of such terms (the
first term carrying an implicit `+`).  `renderExpr` prints such a structure
back into the flat string the evaluator receives. -/

/-- A decimal literal: integer digits and an optional fractional part
(`none` means no decimal point at all, `some []` a trailing point). -/
structure Lit where
  intDigits : List (Fin 10)
  frac : Option (List (Fin 10))
deriving DecidableEq, Repr

/-- A multiplicative term: a head literal and a chain of `*` (`true`) or `/`
(`false`) factors, folded left-to-right. -/
structure MathTerm where
  headLit : Lit
  factors : List (Bool × Lit)
deriving DecidableEq, Repr

/-- An additive expression: a first term (implicitly added) and a chain of `+`
(`true`) or `-` (`false`) terms, folded left-to-right. -/
structure MathExpr where
  firstTerm : MathTerm
  terms : List (Bool × MathTerm)
deriving DecidableEq, Repr

/-- The character of a digit. -/
def digitChar (d : Fin 10) : Char := Char.ofNat (48 + d.val)

/-- Numeric value of a digit list, most significant first. -/
def natOfDigits (ds : List (Fin 10)) : ℕ := ds.foldl (fun a d => 10 * a + d.val) 0

/-- A literal parses to a number exactly when it contains at least one
digit. -/
def litOK (l : Lit) : Bool :=
  !l.intDigits.isEmpty ||
    (match l.frac with
     | some f => !f.isEmpty
     | none => false)

/-- Value of a literal. -/
def litVal (l : Lit) : ℚ :=
  (natOfDigits l.intDigits : ℚ) +
    (natOfDigits (l.frac.getD []) : ℚ) / 10 ^ (l.frac.getD []).length

/-- String form of a literal. -/
def renderLit (l : Lit) : List Char :=
  l.intDigits.map digitChar ++
    match l.frac with
    | some f => '.' :: f.map digitChar
    | none => []

/-- String form of a term. -/
def renderTerm (t : MathTerm) : List Char :=
  renderLit t.headLit ++
    (t.factors.map (fun p => (if p.1 then '*' else '/') :: renderLit p.2)).flatten

/-- String form of an expression. -/
def renderExpr (e : MathExpr) : List Char :=
  renderTerm e.firstTerm ++
    (e.terms.map (fun p => (if p.1 then '+' else '-') :: renderTerm p.2)).flatten

/-- Value of a literal when it parses, `none` otherwise. -/
def litValOpt (l : Lit) : Option ℚ := if litOK l then some (litVal l) else none

/-- Structured counterpart of the multiplicative fold, with the evaluator's
failure modes (unparseable literal, division by zero). -/
def evalFactors : List (Bool × Lit) → ℚ → Option ℚ
  | [], acc => some acc
  | (isMul, l) :: rest, acc =>
    match litValOpt l with
    | none => none
    | some v =>
      if isMul then evalFactors rest (acc * v)
      else if v = 0 then none else evalFactors rest (acc / v)

/-- Structured evaluation of one term. -/
def evalTermOpt (t : MathTerm) : Option ℚ :=
  match litValOpt t.headLit with
  | none => none
  | some v => evalFactors t.factors v

/-- Structured counterpart of the additive fold. -/
def evalTerms : List (Bool × MathTerm) → ℚ → Option ℚ
  | [], acc => some acc
  | (isAdd, t) :: rest, acc =>
    match evalTermOpt t with
    | none => none
    | some v => evalTerms rest (if isAdd then acc + v else acc - v)

/-- Structured evaluation of an expression, mirroring the evaluator's initial
accumulator `0` and initial operator `+`. -/
def evalExprOpt (e : MathExpr) : Option ℚ :=
  match evalTermOpt e.firstTerm with
  | none => none
  | some v => evalTerms e.terms (0 + v)

/-- Standard-precedence value of a term: `*`/`/` folded left-to-right. -/
def termVal (t : MathTerm) : ℚ :=
  t.factors.foldl (fun acc p => if p.1 then acc * litVal p.2 else acc / litVal p.2)
    (litVal t.headLit)

/-- Standard-precedence value of an expression: terms combined with `+`/`-`
left-to-right. -/
def exprVal (e : MathExpr) : ℚ :=
  e.terms.foldl (fun acc p => if p.1 then acc + termVal p.2 else acc - termVal p.2)
    (termVal e.firstTerm)

/-- Well-formedness of a term: every literal has a digit and every divisor is
nonzero. -/
def termWF (t : MathTerm) : Prop :=
  litOK t.headLit = true ∧
    ∀ p ∈ t.factors, litOK p.2 = true ∧ (p.1 = false → litVal p.2 ≠ 0)

/-- Well-formedness of an expression. -/
def exprWF (e : MathExpr) : Prop :=
  termWF e.firstTerm ∧ ∀ p ∈ e.terms, termWF p.2

instance : DecidablePred termWF := fun t => by
  unfold termWF; infer_instance

instance : DecidablePred exprWF := fun e => by
  unfold exprWF; infer_instance

/-- A division whose right operand is a zero-valued literal. -/
def termHasDivZero (t : MathTerm) : Prop :=
  ∃ p ∈ t.factors, p.1 = false ∧ litVal p.2 = 0

/-- An expression containing a division by (a literal of value) zero. -/
def exprHasDivZero (e : MathExpr) : Prop :=
  termHasDivZero e.firstTerm ∨ ∃ p ∈ e.terms, termHasDivZero p.2

instance : DecidablePred termHasDivZero := fun t => by
  unfold termHasDivZero; infer_instance

instance : DecidablePred exprHasDivZero := fun e => by
  unfold exprHasDivZero; infer_instance

/-- The overflow probe input: an amount segment of `n + 1` digits (a `1`
followed by `n` zeros) and the title `x`.  For `n ≥ 309` the literal exceeds
the largest finite IEEE double (about `1.8e308`), which is how JavaScript's
`parseFloat` reads it. -/
def overflowInput (n : ℕ) : List Char :=
  (digitChar 1 :: List.replicate n (digitChar 0)) ++ " x".data

/-! ## Theorems -/

lemma digitChar_facts : ∀ d : Fin 10,
    (digitChar d).isDigit = true ∧ isAddOp (digitChar d) = false ∧
    isMulOp (digitChar d) = false ∧ isSpaceChar (digitChar d) = false ∧
    isMathChar (digitChar d) = true ∧ digitChar d ≠ '.' ∧
    (digitChar d).toNat = 48 + d.val := by
  decide

lemma takeWhile_append_of_all {p : Char → Bool} {l₁ l₂ : List Char}
    (h : ∀ c ∈ l₁, p c = true) :
    (l₁ ++ l₂).takeWhile p = l₁ ++ l₂.takeWhile p := by
  induction l₁ with
  | nil => simp
  | cons a t ih =>
    have ha : p a = true := h a (List.mem_cons_self a t)
    simp [List.takeWhile_cons, ha,
      ih (fun c hc => h c (List.mem_cons_of_mem a hc))]

lemma dropWhile_append_of_all {p : Char → Bool} {l₁ l₂ : List Char}
    (h : ∀ c ∈ l₁, p c = true) :
    (l₁ ++ l₂).dropWhile p = l₂.dropWhile p := by
  induction l₁ with
  | nil => simp
  | cons a t ih =>
    have ha : p a = true := h a (List.mem_cons_self a t)
    simp [List.dropWhile_cons, ha,
      ih (fun c hc => h c (List.mem_cons_of_mem a hc))]

lemma takeWhile_of_all {p : Char → Bool} {l : List Char}
    (h : ∀ c ∈ l, p c = true) : l.takeWhile p = l := by
  simpa using @takeWhile_append_of_all p l [] h

lemma dropWhile_of_all {p : Char → Bool} {l : List Char}
    (h : ∀ c ∈ l, p c = true) : l.dropWhile p = [] := by
  simpa using @dropWhile_append_of_all p l [] h

lemma all_isDigit_map (ds : List (Fin 10)) :
    ∀ c ∈ ds.map digitChar, c.isDigit = true := by
  intro c hc
  rcases List.mem_map.mp hc with ⟨d, _, rfl⟩
  exact (digitChar_facts d).1

lemma digitsToNat_map_digitChar (ds : List (Fin 10)) :
    digitsToNat (ds.map digitChar) = natOfDigits ds := by
  unfold digitsToNat natOfDigits
  suffices h : ∀ a : ℕ,
      (ds.map digitChar).foldl (fun a c => 10 * a + (c.toNat - 48)) a =
        ds.foldl (fun a d => 10 * a + d.val) a from h 0
  induction ds with
  | nil => intro a; rfl
  | cons d t ih =>
    intro a
    simp only [List.map_cons, List.foldl_cons]
    rw [(digitChar_facts d).2.2.2.2.2.2, Nat.add_sub_cancel_left]
    exact ih _

lemma parseFloatQ_renderLit (l : Lit) : parseFloatQ (renderLit l) = litValOpt l := by
  rcases l with ⟨ds, frac⟩
  cases frac with
  | none =>
    have hr : renderLit ⟨ds, none⟩ = ds.map digitChar := by
      simp [renderLit]
    rw [hr]
    unfold parseFloatQ
    rw [takeWhile_of_all (all_isDigit_map ds), dropWhile_of_all (all_isDigit_map ds)]
    dsimp only
    have hA : (ds.map digitChar).isEmpty = !litOK ⟨ds, none⟩ := by
      cases ds <;> simp [litOK]
    rw [digitsToNat_map_digitChar] at *
    simp only [hA]
    cases h : litOK ⟨ds, none⟩ <;>
      simp [litValOpt, h, litVal, natOfDigits]
  | some f =>
    have hr : renderLit ⟨ds, some f⟩ = ds.map digitChar ++ '.' :: f.map digitChar := by
      simp [renderLit]
    rw [hr]
    unfold parseFloatQ
    rw [takeWhile_append_of_all (all_isDigit_map ds),
      dropWhile_append_of_all (all_isDigit_map ds)]
    have hdot : Char.isDigit '.' = false := by decide
    rw [List.takeWhile_cons, List.dropWhile_cons]
    simp only [hdot, if_false, List.append_nil, Bool.false_eq_true]
    rw [takeWhile_of_all (all_isDigit_map f)]
    have hA : ((ds.map digitChar).isEmpty && (f.map digitChar).isEmpty) =
        !litOK ⟨ds, some f⟩ := by
      cases ds <;> cases f <;> simp [litOK]
    simp only [digitsToNat_map_digitChar, List.length_map, hA]
    cases h : litOK ⟨ds, some f⟩ <;>
      simp [litValOpt, h, litVal, natOfDigits]

lemma splitKeep_of_all {isSep : Char → Bool} {l : List Char}
    (h : ∀ c ∈ l, isSep c = false) : splitKeep isSep l = [l] := by
  induction l with
  | nil => rfl
  | cons a t ih =>
    have ha := h a (List.mem_cons_self a t)
    rw [splitKeep, if_neg (by simp [ha]),
      ih (fun c hc => h c (List.mem_cons_of_mem a hc))]

lemma splitKeep_append_sep {isSep : Char → Bool} {l₁ : List Char} {c : Char}
    {l₂ : List Char} (h₁ : ∀ x ∈ l₁, isSep x = false) (hc : isSep c = true) :
    splitKeep isSep (l₁ ++ c :: l₂) = l₁ :: [c] :: splitKeep isSep l₂ := by
  induction l₁ with
  | nil =>
    simp only [List.nil_append]
    rw [splitKeep, if_pos hc]
  | cons a t ih =>
    have ha := h₁ a (List.mem_cons_self a t)
    simp only [List.cons_append]
    rw [splitKeep, if_neg (by simp [ha]),
      ih (fun x hx => h₁ x (List.mem_cons_of_mem a hx))]

lemma splitKeep_interleave {α : Type} (isSep : Char → Bool) (opc : α → Char)
    (render : α → List Char) :
    ∀ (fs : List α) (pre : List Char),
      (∀ c ∈ pre, isSep c = false) →
      (∀ p ∈ fs, isSep (opc p) = true) →
      (∀ p ∈ fs, ∀ c ∈ render p, isSep c = false) →
      splitKeep isSep (pre ++ (fs.map (fun p => opc p :: render p)).flatten) =
        pre :: (fs.map (fun p => [[opc p], render p])).flatten := by
  intro fs
  induction fs with
  | nil =>
    intro pre hpre _ _
    simp [splitKeep_of_all hpre]
  | cons p rest ih =>
    intro pre hpre hop hrender
    simp only [List.map_cons, List.flatten_cons, List.cons_append]
    rw [splitKeep_append_sep hpre (hop p (List.mem_cons_self p rest))]
    rw [ih (render p) (hrender p (List.mem_cons_self p rest))
      (fun q hq => hop q (List.mem_cons_of_mem p hq))
      (fun q hq => hrender q (List.mem_cons_of_mem p hq))]
    simp

lemma mem_renderLit {c : Char} {l : Lit} (hc : c ∈ renderLit l) :
    (∃ d : Fin 10, c = digitChar d) ∨ c = '.' := by
  rcases l with ⟨ds, frac⟩
  cases frac with
  | none =>
    simp only [renderLit, List.append_nil] at hc
    rcases List.mem_map.mp hc with ⟨d, _, rfl⟩
    exact Or.inl ⟨d, rfl⟩
  | some f =>
    simp only [renderLit] at hc
    rcases List.mem_append.mp hc with h | h
    · rcases List.mem_map.mp h with ⟨d, _, rfl⟩
      exact Or.inl ⟨d, rfl⟩
    · rcases List.mem_cons.mp h with h | h
      · exact Or.inr h
      · rcases List.mem_map.mp h with ⟨d, _, rfl⟩
        exact Or.inl ⟨d, rfl⟩

lemma mem_renderTerm {c : Char} {t : MathTerm} (hc : c ∈ renderTerm t) :
    (∃ d : Fin 10, c = digitChar d) ∨ c = '.' ∨ c = '*' ∨ c = '/' := by
  simp only [renderTerm] at hc
  rcases List.mem_append.mp hc with h | h
  · rcases mem_renderLit h with h | h
    · exact Or.inl h
    · exact Or.inr (Or.inl h)
  · rcases List.mem_flatten.mp h with ⟨piece, hpiece, hcp⟩
    rcases List.mem_map.mp hpiece with ⟨p, _, rfl⟩
    rcases List.mem_cons.mp hcp with h | h
    · rcases Bool.eq_false_or_eq_true p.1 with h1 | h1 <;>
        simp [h1] at h <;> simp [h]
    · rcases mem_renderLit h with h | h
      · exact Or.inl h
      · exact Or.inr (Or.inl h)

lemma mem_renderExpr {c : Char} {e : MathExpr} (hc : c ∈ renderExpr e) :
    (∃ d : Fin 10, c = digitChar d) ∨ c = '.' ∨ c = '*' ∨ c = '/' ∨
      c = '+' ∨ c = '-' := by
  simp only [renderExpr] at hc
  rcases List.mem_append.mp hc with h | h
  · rcases mem_renderTerm h with h | h | h | h
    · exact Or.inl h
    · exact Or.inr (Or.inl h)
    · exact Or.inr (Or.inr (Or.inl h))
    · exact Or.inr (Or.inr (Or.inr (Or.inl h)))
  · rcases List.mem_flatten.mp h with ⟨piece, hpiece, hcp⟩
    rcases List.mem_map.mp hpiece with ⟨p, _, rfl⟩
    rcases List.mem_cons.mp hcp with h | h
    · rcases Bool.eq_false_or_eq_true p.1 with h1 | h1 <;>
        simp [h1] at h <;> simp [h]
    · rcases mem_renderTerm h with h | h | h | h
      · exact Or.inl h
      · exact Or.inr (Or.inl h)
      · exact Or.inr (Or.inr (Or.inl h))
      · exact Or.inr (Or.inr (Or.inr (Or.inl h)))

lemma renderLit_no_mulOp {l : Lit} : ∀ c ∈ renderLit l, isMulOp c = false := by
  intro c hc
  rcases mem_renderLit hc with ⟨d, rfl⟩ | h
  · exact (digitChar_facts d).2.2.1
  · subst h; decide

lemma renderTerm_no_addOp {t : MathTerm} : ∀ c ∈ renderTerm t, isAddOp c = false := by
  intro c hc
  rcases mem_renderTerm hc with ⟨d, rfl⟩ | h | h | h
  · exact (digitChar_facts d).2.1
  all_goals subst h; decide

lemma renderExpr_no_space {e : MathExpr} :
    ∀ c ∈ renderExpr e, isSpaceChar c = false := by
  intro c hc
  rcases mem_renderExpr hc with ⟨d, rfl⟩ | h | h | h | h | h
  · exact (digitChar_facts d).2.2.2.1
  all_goals subst h; decide

lemma renderExpr_all_math {e : MathExpr} :
    ∀ c ∈ renderExpr e, isMathChar c = true := by
  intro c hc
  rcases mem_renderExpr hc with ⟨d, rfl⟩ | h | h | h | h | h
  · exact (digitChar_facts d).2.2.2.2.1
  all_goals subst h; decide

lemma litValOpt_eq_some {l : Lit} {v : ℚ} (h : litValOpt l = some v) :
    v = litVal l := by
  unfold litValOpt at h
  by_cases hk : litOK l = true
  · rw [if_pos hk] at h
    exact (Option.some.inj h).symm
  · rw [if_neg hk] at h
    cases h

lemma emdLoop_factors (fs : List (Bool × Lit)) :
    ∀ acc : ℚ,
      emdLoop
        ((fs.map (fun p => [[(if p.1 then '*' else '/')], renderLit p.2])).flatten)
        acc = evalFactors fs acc := by
  induction fs with
  | nil => intro acc; rfl
  | cons p rest ih =>
    intro acc
    rcases p with ⟨isMul, l⟩
    simp only [List.map_cons, List.flatten_cons, List.cons_append, List.nil_append]
    cases hv : litValOpt l with
    | none =>
      cases isMul <;>
        simp [emdLoop, parseFloatQ_renderLit, hv, evalFactors]
    | some v =>
      cases isMul with
      | true =>
        simp [emdLoop, parseFloatQ_renderLit, hv, evalFactors, ih]
      | false =>
        by_cases hz : v = 0
        · simp [emdLoop, parseFloatQ_renderLit, hv, evalFactors, hz]
        · simp [emdLoop, parseFloatQ_renderLit, hv, evalFactors, hz, ih]

lemma evaluateMultiplyDivide_renderTerm (t : MathTerm) :
    evaluateMultiplyDivide (renderTerm t) = evalTermOpt t := by
  have hsplit : splitKeep isMulOp (renderTerm t) =
      renderLit t.headLit ::
        (t.factors.map (fun p => [[(if p.1 then '*' else '/')], renderLit p.2])).flatten := by
    unfold renderTerm
    exact splitKeep_interleave isMulOp _ _ t.factors (renderLit t.headLit)
      (fun c hc => renderLit_no_mulOp c hc)
      (fun p _ => by rcases p with ⟨b, x⟩; cases b <;> rfl)
      (fun p _ c hc => renderLit_no_mulOp c hc)
  cases hv : litValOpt t.headLit with
  | none =>
    simp [evaluateMultiplyDivide, hsplit, parseFloatQ_renderLit, hv, evalTermOpt]
  | some v =>
    simp [evaluateMultiplyDivide, hsplit, parseFloatQ_renderLit, hv, evalTermOpt,
      emdLoop_factors]

lemma renderTerm_ne_addTok (t : MathTerm) :
    renderTerm t ≠ ['+'] ∧ renderTerm t ≠ ['-'] := by
  constructor <;> intro h
  · have hm : '+' ∈ renderTerm t := by rw [h]; simp
    have := renderTerm_no_addOp '+' hm
    simp [isAddOp] at this
  · have hm : '-' ∈ renderTerm t := by rw [h]; simp
    have := renderTerm_no_addOp '-' hm
    simp [isAddOp] at this

lemma emLoop_cons_term {tok : List Char} (hp : tok ≠ ['+']) (hm : tok ≠ ['-'])
    (ts : List (List Char)) (op : Char) (acc : ℚ) :
    emLoop (tok :: ts) op acc =
      match evaluateMultiplyDivide tok with
      | none => none
      | some v => emLoop ts op (if op = '+' then acc + v else acc - v) := by
  rw [emLoop, if_neg hp, if_neg hm]

lemma emLoop_terms (ts : List (Bool × MathTerm)) :
    ∀ (op0 : Char) (acc : ℚ),
      emLoop
        ((ts.map (fun p => [[(if p.1 then '+' else '-')], renderTerm p.2])).flatten)
        op0 acc = evalTerms ts acc := by
  induction ts with
  | nil => intro op0 acc; rfl
  | cons p rest ih =>
    intro op0 acc
    rcases p with ⟨isAdd, t⟩
    have hne := renderTerm_ne_addTok t
    cases isAdd with
    | true =>
      simp only [List.map_cons, List.flatten_cons, List.cons_append, List.nil_append,
        if_true]
      rw [emLoop, if_pos rfl]
      rw [emLoop_cons_term hne.1 hne.2, evaluateMultiplyDivide_renderTerm]
      cases hv : evalTermOpt t with
      | none => simp [evalTerms, hv]
      | some v => simp [evalTerms, hv, ih]
    | false =>
      simp only [List.map_cons, List.flatten_cons, List.cons_append, List.nil_append,
        if_false, Bool.false_eq_true]
      rw [emLoop, if_neg (by decide), if_pos rfl]
      rw [emLoop_cons_term hne.1 hne.2, evaluateMultiplyDivide_renderTerm]
      cases hv : evalTermOpt t with
      | none => simp [evalTerms, hv]
      | some v =>
        have hop : (('-' : Char) = '+') = False := by simp
        simp [evalTerms, hv, ih, hop]

lemma renderLit_eq_nil {l : Lit} (h : renderLit l = []) : litOK l = false := by
  rcases l with ⟨ds, frac⟩
  cases frac with
  | none =>
    simp only [renderLit, List.append_nil] at h
    simp [litOK, List.map_eq_nil_iff.mp h]
  | some f =>
    simp [renderLit] at h

lemma evaluateMath_renderExpr (e : MathExpr) :
    evaluateMath (renderExpr e) = (evalExprOpt e).map round2 := by
  have hclean : (renderExpr e).filter (fun c => !isSpaceChar c) = renderExpr e :=
    List.filter_eq_self.mpr (fun c hc => by simp [renderExpr_no_space c hc])
  by_cases hnil : renderExpr e = []
  · have h1 : renderTerm e.firstTerm = [] := by
      rcases List.append_eq_nil.mp (hnil ▸ rfl : renderTerm e.firstTerm ++
        (e.terms.map (fun p => (if p.1 then '+' else '-') :: renderTerm p.2)).flatten = []) with ⟨ha, _⟩
      exact ha
    have h2 : renderLit e.firstTerm.headLit = [] :=
      (List.append_eq_nil.mp h1).1
    have h3 : litOK e.firstTerm.headLit = false := renderLit_eq_nil h2
    unfold evaluateMath
    rw [hclean, hnil]
    simp [evalExprOpt, evalTermOpt, litValOpt, h3]
  · have hmath : (renderExpr e).all isMathChar = true :=
      List.all_eq_true.mpr (fun c hc => renderExpr_all_math c hc)
    have hsplit : splitKeep isAddOp (renderExpr e) =
        renderTerm e.firstTerm ::
          (e.terms.map (fun p => [[(if p.1 then '+' else '-')], renderTerm p.2])).flatten := by
      unfold renderExpr
      exact splitKeep_interleave isAddOp _ _ e.terms (renderTerm e.firstTerm)
        (fun c hc => renderTerm_no_addOp c hc)
        (fun p _ => by rcases p with ⟨b, x⟩; cases b <;> rfl)
        (fun p _ c hc => renderTerm_no_addOp c hc)
    have hne := renderTerm_ne_addTok e.firstTerm
    unfold evaluateMath
    rw [hclean]
    rw [if_neg (by simp [hmath, List.isEmpty_iff, hnil])]
    rw [hsplit, emLoop_cons_term hne.1 hne.2, evaluateMultiplyDivide_renderTerm]
    cases hv : evalTermOpt e.firstTerm with
    | none => simp [evalExprOpt, hv]
    | some v =>
      have : (('+' : Char) = '+') = True := by simp
      simp only [this, if_true]
      rw [emLoop_terms]
      simp only [evalExprOpt, hv]
      cases evalTerms e.terms (0 + v) <;> simp

lemma evalFactors_wf {fs : List (Bool × Lit)}
    (h : ∀ p ∈ fs, litOK p.2 = true ∧ (p.1 = false → litVal p.2 ≠ 0)) :
    ∀ acc : ℚ, evalFactors fs acc =
      some (fs.foldl
        (fun acc p => if p.1 then acc * litVal p.2 else acc / litVal p.2) acc) := by
  induction fs with
  | nil => intro acc; rfl
  | cons p rest ih =>
    intro acc
    rcases p with ⟨isMul, l⟩
    obtain ⟨hok, hnz⟩ := h _ (List.mem_cons_self _ _)
    have ih' := ih (fun q hq => h q (List.mem_cons_of_mem _ hq))
    cases isMul with
    | true => simp [evalFactors, litValOpt, hok, ih']
    | false =>
      have hz : litVal l ≠ 0 := hnz rfl
      simp [evalFactors, litValOpt, hok, hz, ih']

lemma evalTermOpt_wf {t : MathTerm} (h : termWF t) :
    evalTermOpt t = some (termVal t) := by
  obtain ⟨hok, hfac⟩ := h
  simp [evalTermOpt, litValOpt, hok, termVal, evalFactors_wf hfac]

lemma evalTerms_wf {ts : List (Bool × MathTerm)} (h : ∀ p ∈ ts, termWF p.2) :
    ∀ acc : ℚ, evalTerms ts acc =
      some (ts.foldl
        (fun acc p => if p.1 then acc + termVal p.2 else acc - termVal p.2) acc) := by
  induction ts with
  | nil => intro acc; rfl
  | cons p rest ih =>
    intro acc
    rcases p with ⟨isAdd, t⟩
    have ht := evalTermOpt_wf (h _ (List.mem_cons_self _ _))
    have ih' := ih (fun q hq => h q (List.mem_cons_of_mem _ hq))
    cases isAdd <;> simp [evalTerms, ht, ih']

lemma evalExprOpt_wf {e : MathExpr} (h : exprWF e) :
    evalExprOpt e = some (exprVal e) := by
  obtain ⟨h1, h2⟩ := h
  simp [evalExprOpt, evalTermOpt_wf h1, evalTerms_wf h2, exprVal, zero_add]

lemma evalFactors_divzero {fs : List (Bool × Lit)}
    (h : ∃ p ∈ fs, p.1 = false ∧ litVal p.2 = 0) :
    ∀ acc : ℚ, evalFactors fs acc = none := by
  induction fs with
  | nil => simp at h
  | cons q rest ih =>
    intro acc
    rcases q with ⟨isMul, l⟩
    rcases h with ⟨p, hp, hdiv⟩
    rcases List.mem_cons.mp hp with rfl | hmem
    · obtain ⟨hfalse, hzero⟩ := hdiv
      subst hfalse
      cases hok : litValOpt l with
      | none => simp [evalFactors, hok]
      | some v =>
        have hv := litValOpt_eq_some hok
        simp [evalFactors, hok, hv, hzero]
    · have ih' := ih ⟨p, hmem, hdiv⟩
      cases hok : litValOpt l with
      | none => simp [evalFactors, hok]
      | some v =>
        cases isMul with
        | true => simp [evalFactors, hok, ih']
        | false =>
          by_cases hz : v = 0
          · simp [evalFactors, hok, hz]
          · simp [evalFactors, hok, hz, ih']

lemma evalTermOpt_divzero {t : MathTerm} (h : termHasDivZero t) :
    evalTermOpt t = none := by
  cases hok : litValOpt t.headLit with
  | none => simp [evalTermOpt, hok]
  | some v => simp [evalTermOpt, hok, evalFactors_divzero h]

lemma evalTerms_divzero {ts : List (Bool × MathTerm)}
    (h : ∃ p ∈ ts, termHasDivZero p.2) :
    ∀ acc : ℚ, evalTerms ts acc = none := by
  induction ts with
  | nil => simp at h
  | cons q rest ih =>
    intro acc
    rcases q with ⟨isAdd, t⟩
    rcases h with ⟨p, hp, hdz⟩
    rcases List.mem_cons.mp hp with rfl | hmem
    · simp [evalTerms, evalTermOpt_divzero hdz]
    · cases hv : evalTermOpt t with
      | none => simp [evalTerms, hv]
      | some v => simp [evalTerms, hv, ih ⟨p, hmem, hdz⟩]

lemma evalExprOpt_divzero {e : MathExpr} (h : exprHasDivZero e) :
    evalExprOpt e = none := by
  rcases h with h | h
  · simp [evalExprOpt, evalTermOpt_divzero h]
  · cases hv : evalTermOpt e.firstTerm with
    | none => simp [evalExprOpt, hv]
    | some v => simp [evalExprOpt, hv, evalTerms_divzero h]

lemma foldl_add_amount (l : List LineItem) (a : ℚ) :
    l.foldl (fun sum item => sum + item.amount) a = a + (l.map LineItem.amount).sum := by
  induction l generalizing a with
  | nil => simp
  | cons x xs ih => simp [ih, add_assoc]

/-- Claim C1: for every flip with buy price `B`, optional sell price `S`
(defaulting to 0) and line items whose amounts sum to `T`, `computeTotals`
returns `totalCost = T`, `profit = S - (B + T)` and
`roi = if B + T > 0 then profit / (B + T) else 0`; with zero line items the
sum defaults to 0 and the ROI guard avoids any division-by-zero artifact. -/
theorem computeTotals_spec :
    (∀ (flip : Flip) (lineItems : List LineItem),
      computeTotals flip lineItems =
        { totalCost := (lineItems.map LineItem.amount).sum
          profit := flip.sell_price.getD 0 -
            (flip.buy_price + (lineItems.map LineItem.amount).sum)
          roi := if flip.buy_price + (lineItems.map LineItem.amount).sum > 0 then
              (flip.sell_price.getD 0 -
                (flip.buy_price + (lineItems.map LineItem.amount).sum)) /
                (flip.buy_price + (lineItems.map LineItem.amount).sum)
            else 0 }) ∧
    (∀ flip : Flip, (computeTotals flip []).totalCost = 0) ∧
    (∀ flip : Flip, flip.buy_price = 0 → flip.sell_price = none →
      computeTotals flip [] = { totalCost := 0, profit := 0, roi := 0 }) := by
  refine ⟨fun flip lineItems => ?_, fun flip => ?_, fun flip hb hs => ?_⟩
  · simp [computeTotals, foldl_add_amount]
  · simp [computeTotals]
  · simp [computeTotals, hb, hs]

/-- Witness for claim C1: the third conjunct instantiated at a concrete flip
with buy price 0, no sell price and no line items. -/
theorem computeTotals_spec_witness :
    computeTotals
      { id := 1, year := none, make := none, model := none, vin := none,
        miles := none, buy_price := 0, sell_price := none, sold_date := none,
        created_at := "2025-01-01", updated_at := "2025-01-01" } [] =
      { totalCost := 0, profit := 0, roi := 0 } :=
  computeTotals_spec.2.2 _ rfl rfl

/-- Claim C9: the what-if computation is `computeTotals` with the sell price
replaced: feeding it the flip's buy price, the flip's previously computed
total cost and a hypothetical sell price gives exactly the totals of the same
flip with its sell price overridden. -/
theorem computeWhatIfTotals_refines_computeTotals :
    ∀ (flip : Flip) (lineItems : List LineItem) (whatIfSellPriceNum : ℚ),
      computeWhatIfTotals whatIfSellPriceNum flip.buy_price
          (computeTotals flip lineItems).totalCost =
        computeTotals { flip with sell_price := some whatIfSellPriceNum } lineItems := by
  intro flip lineItems s
  simp [computeTotals, computeWhatIfTotals]

lemma filter_space_idem (s : List Char) :
    (s.filter (fun c => !isSpaceChar c)).filter (fun c => !isSpaceChar c) =
      s.filter (fun c => !isSpaceChar c) := by
  rw [List.filter_filter]
  simp

lemma evaluateMath_filter (s : List Char) :
    evaluateMath (s.filter (fun c => !isSpaceChar c)) = evaluateMath s := by
  unfold evaluateMath
  rw [filter_space_idem]

/-- Claim C2: for every arithmetic expression (a first term implicitly added,
then `+`/`-` terms left-to-right, each term a left-to-right `*`/`/` chain of
decimal literals) whose literals are well formed and whose divisors are
nonzero, and for every input string that is the expression's text up to
whitespace, `evaluateMath` returns the expression's standard-precedence value
rounded to 2 decimal places by round-half-up on the value times 100. -/
theorem evaluateMath_spec :
    ∀ (e : MathExpr) (s : List Char),
      exprWF e →
      s.filter (fun c => !isSpaceChar c) = renderExpr e →
      evaluateMath s = some (round2 (exprVal e)) := by
  intro e s hwf hs
  calc evaluateMath s = evaluateMath (s.filter (fun c => !isSpaceChar c)) :=
        (evaluateMath_filter s).symm
    _ = evaluateMath (renderExpr e) := by rw [hs]
    _ = (evalExprOpt e).map round2 := evaluateMath_renderExpr e
    _ = some (round2 (exprVal e)) := by rw [evalExprOpt_wf hwf]; rfl

/-- Witness for claim C2: the expression `150 - 25` (one subtraction of two
integer literals) evaluates to `round2 125 = 125`. -/
theorem evaluateMath_spec_witness :
    exprWF ⟨⟨⟨[1, 5, 0], none⟩, []⟩, [(false, ⟨⟨[2, 5], none⟩, []⟩)]⟩ ∧
    evaluateMath "150 - 25".data =
      some (round2 (exprVal ⟨⟨⟨[1, 5, 0], none⟩, []⟩,
        [(false, ⟨⟨[2, 5], none⟩, []⟩)]⟩)) :=
  ⟨by with_unfolding_all decide,
    evaluateMath_spec ⟨⟨⟨[1, 5, 0], none⟩, []⟩, [(false, ⟨⟨[2, 5], none⟩, []⟩)]⟩
      "150 - 25".data (by with_unfolding_all decide) (by decide)⟩

lemma matchPatterns_nil :
    matchPattern1 [] = none ∧ matchPattern2 [] = none ∧ matchPattern3 [] = none := by
  decide

/-- Claim C3: the three grammars are tried in order with the first match
winning — whenever pattern 1 matches the trimmed input, the result is the
pattern-1 branch result; pattern 2 is consulted only if pattern 1 fails, and
pattern 3 only if both fail — and on the two spec examples the labeled form
gives `{amount 125, title "new battery"}` and the spaced form gives
`{amount 45, title "oil filter"}`. -/
theorem parseLineItem_grammar_order :
    parseLineItem "$150-25 - new battery" = .ok 125 "new battery" ∧
    parseLineItem "45 oil filter" = .ok 45 "oil filter" ∧
    (∀ (s : String) (g : List Char × List Char),
      matchPattern1 (trimChars s.data) = some g →
      parseLineItem s = patternResult g) ∧
    (∀ (s : String) (g : List Char × List Char),
      matchPattern1 (trimChars s.data) = none →
      matchPattern2 (trimChars s.data) = some g →
      parseLineItem s = patternResult g) ∧
    (∀ (s : String) (g : List Char × List Char),
      matchPattern1 (trimChars s.data) = none →
      matchPattern2 (trimChars s.data) = none →
      matchPattern3 (trimChars s.data) = some g →
      parseLineItem s = pattern3Result g) := by
  refine ⟨by with_unfolding_all decide, by with_unfolding_all decide, ?_, ?_, ?_⟩
  · intro s g hm
    have hne : trimChars s.data ≠ [] := by
      intro h
      rw [h, matchPatterns_nil.1] at hm
      cases hm
    simp only [parseLineItem]
    rw [if_neg hne, hm]
  · intro s g hm1 hm2
    have hne : trimChars s.data ≠ [] := by
      intro h
      rw [h, matchPatterns_nil.2.1] at hm2
      cases hm2
    simp only [parseLineItem]
    rw [if_neg hne, hm1, hm2]
  · intro s g hm1 hm2 hm3
    have hne : trimChars s.data ≠ [] := by
      intro h
      rw [h, matchPatterns_nil.2.2] at hm3
      cases hm3
    simp only [parseLineItem]
    rw [if_neg hne, hm1, hm2, hm3]

/-- Witness for claim C3: the labeled grammar matches the first spec example
with groups `"150-25 "` and `"new battery"`, and the result is the pattern-1
branch result. -/
theorem parseLineItem_grammar_order_witness :
    matchPattern1 (trimChars "$150-25 - new battery".data) =
      some ("150-25 ".data, "new battery".data) ∧
    parseLineItem "$150-25 - new battery" =
      patternResult ("150-25 ".data, "new battery".data) :=
  ⟨by decide,
    parseLineItem_grammar_order.2.2.1 "$150-25 - new battery"
      ("150-25 ".data, "new battery".data) (by decide)⟩

/-- Claim C4: an expression containing a division by a zero-valued literal
makes `evaluateMath` fail (return `none` — no exception, no `NaN`, no
infinity); an amount segment whose evaluation fails makes each grammar branch
return the structured `Invalid amount` error; and on the spec example
`"10/0 something"` the parser returns exactly that error. -/
theorem parseLineItem_divzero :
    (∀ (e : MathExpr) (s : List Char),
      exprHasDivZero e →
      s.filter (fun c => !isSpaceChar c) = renderExpr e →
      evaluateMath s = none) ∧
    (∀ g : List Char × List Char,
      evaluateMath (trimChars g.1) = none →
      pattern3Result g = .err "Invalid amount" ∧
        (trimChars g.2 ≠ [] → patternResult g = .err "Invalid amount")) ∧
    parseLineItem "10/0 something" = .err "Invalid amount" := by
  refine ⟨?_, ?_, by with_unfolding_all decide⟩
  · intro e s hdz hs
    calc evaluateMath s = evaluateMath (s.filter (fun c => !isSpaceChar c)) :=
          (evaluateMath_filter s).symm
      _ = evaluateMath (renderExpr e) := by rw [hs]
      _ = (evalExprOpt e).map round2 := evaluateMath_renderExpr e
      _ = none := by rw [evalExprOpt_divzero hdz]; rfl
  · intro g hev
    constructor
    · simp only [pattern3Result]
      rw [hev]
    · intro ht
      simp only [patternResult]
      rw [if_neg ht, hev]

/-- Witness for claim C4: the expression `10/0` contains a division by zero
and `evaluateMath` rejects its text. -/
theorem parseLineItem_divzero_witness :
    exprHasDivZero ⟨⟨⟨[1, 0], none⟩, [(false, ⟨[0], none⟩)]⟩, []⟩ ∧
    evaluateMath "10/0".data = none :=
  ⟨by with_unfolding_all decide,
    parseLineItem_divzero.1 ⟨⟨⟨[1, 0], none⟩, [(false, ⟨[0], none⟩)]⟩, []⟩
      "10/0".data (by with_unfolding_all decide) (by decide)⟩

lemma dropWhile_idem (p : Char → Bool) (l : List Char) :
    (l.dropWhile p).dropWhile p = l.dropWhile p := by
  induction l with
  | nil => rfl
  | cons a t ih =>
    by_cases h : p a
    · simp [List.dropWhile_cons, h, ih]
    · simp [List.dropWhile_cons, h]

lemma dropWhile_eq_self_of_prefix {p : Char → Bool} {l₁ l₂ : List Char}
    (h : l₁ <+: l₂) (h₂ : l₂.dropWhile p = l₂) : l₁.dropWhile p = l₁ := by
  cases l₁ with
  | nil => rfl
  | cons a t =>
    rcases h with ⟨r, rfl⟩
    rw [List.cons_append, List.dropWhile_cons] at h₂
    by_cases hpa : p a
    · exfalso
      rw [if_pos hpa] at h₂
      have hle : (List.dropWhile p (t ++ r)).length ≤ (t ++ r).length :=
        List.Sublist.length_le (List.IsSuffix.sublist (List.dropWhile_suffix p))
      have hlen : (List.dropWhile p (t ++ r)).length = (t ++ r).length + 1 := by
        rw [h₂]; simp
      omega
    · rw [List.dropWhile_cons, if_neg hpa]

lemma trimChars_idem (l : List Char) : trimChars (trimChars l) = trimChars l := by
  have hAclean : (l.dropWhile isSpaceChar).dropWhile isSpaceChar =
      l.dropWhile isSpaceChar := dropWhile_idem _ l
  set A := l.dropWhile isSpaceChar with hA
  set B := A.reverse.dropWhile isSpaceChar with hB
  have hBclean : B.dropWhile isSpaceChar = B := by
    rw [hB]; exact dropWhile_idem _ _
  have htpre : B.reverse <+: A := by
    rw [show A = A.reverse.reverse from (List.reverse_reverse A).symm]
    exact List.reverse_prefix.mpr (List.dropWhile_suffix isSpaceChar)
  have h1 : B.reverse.dropWhile isSpaceChar = B.reverse :=
    dropWhile_eq_self_of_prefix htpre hAclean
  show ((B.reverse.dropWhile isSpaceChar).reverse.dropWhile isSpaceChar).reverse =
    B.reverse
  rw [h1, List.reverse_reverse, hBclean]

lemma patternResult_ok {g : List Char × List Char} {a : ℚ} {t : String}
    (h : patternResult g = .ok a t) :
    0 < a ∧ t.data = trimChars g.2 ∧ trimChars g.2 ≠ [] := by
  simp only [patternResult] at h
  split at h
  · cases h
  next ht =>
    split at h
    · cases h
    next v he =>
      split at h
      · cases h
      next hv =>
        simp only [ParseResult.ok.injEq] at h
        obtain ⟨rfl, rfl⟩ := h
        exact ⟨not_le.mp hv, rfl, ht⟩

lemma pattern3Result_ok {g : List Char × List Char} {a : ℚ} {t : String}
    (h : pattern3Result g = .ok a t) :
    0 < a ∧ trimChars t.data ≠ [] := by
  simp only [pattern3Result] at h
  split at h
  · cases h
  next v he =>
    split at h
    · cases h
    next hv =>
      simp only [ParseResult.ok.injEq] at h
      obtain ⟨rfl, rfl⟩ := h
      refine ⟨not_le.mp hv, ?_⟩
      by_cases hg : trimChars g.2 = []
      · simp only [hg, if_pos rfl]
        decide
      · simp only [if_neg hg]
        show trimChars (String.mk (trimChars g.2)).data ≠ []
        rw [show (String.mk (trimChars g.2)).data = trimChars g.2 from rfl,
          trimChars_idem]
        exact hg

lemma patternResult_err {g : List Char × List Char} {m : String}
    (h : patternResult g = .err m) :
    m = "Title cannot be empty" ∨ m = "Invalid amount" := by
  simp only [patternResult] at h
  split at h
  · exact Or.inl (ParseResult.err.inj h).symm
  · split at h
    · exact Or.inr (ParseResult.err.inj h).symm
    · split at h
      · exact Or.inr (ParseResult.err.inj h).symm
      · cases h

lemma pattern3Result_err {g : List Char × List Char} {m : String}
    (h : pattern3Result g = .err m) : m = "Invalid amount" := by
  simp only [pattern3Result] at h
  split at h
  · exact (ParseResult.err.inj h).symm
  · split at h
    · exact (ParseResult.err.inj h).symm
    · cases h

/-- The guards the parser does enforce: a success carries a positive amount
and a title that is non-empty after trimming, every failure is one of the
four structured error messages, and empty or whitespace-only input (trim
leaves nothing) yields the empty-input error.  Note the positivity guard is
the only magnitude check: nothing bounds an accepted amount from above (see
`parseLineItem_overflow_unguarded`). -/
theorem parseLineItem_taxonomy :
    (∀ (s : String) (a : ℚ) (t : String),
      parseLineItem s = .ok a t → 0 < a ∧ trimChars t.data ≠ []) ∧
    (∀ (s m : String),
      parseLineItem s = .err m →
        m = "Input cannot be empty" ∨ m = "Title cannot be empty" ∨
        m = "Invalid amount" ∨
        m = "Could not parse input. Try format: $190 - description") ∧
    (∀ s : String, trimChars s.data = [] →
      parseLineItem s = .err "Input cannot be empty") := by
  refine ⟨?_, ?_, ?_⟩
  · intro s a t h
    simp only [parseLineItem] at h
    split at h
    · cases h
    · split at h
      next g hg =>
        obtain ⟨ha, ht, hne⟩ := patternResult_ok h
        refine ⟨ha, ?_⟩
        rw [ht, trimChars_idem]
        exact hne
      · split at h
        next g hg =>
          obtain ⟨ha, ht, hne⟩ := patternResult_ok h
          refine ⟨ha, ?_⟩
          rw [ht, trimChars_idem]
          exact hne
        · split at h
          next g hg => exact pattern3Result_ok h
          · cases h
  · intro s m h
    simp only [parseLineItem] at h
    split at h
    · exact Or.inl (ParseResult.err.inj h).symm
    · split at h
      · rcases patternResult_err h with h' | h'
        · exact Or.inr (Or.inl h')
        · exact Or.inr (Or.inr (Or.inl h'))
      · split at h
        · rcases patternResult_err h with h' | h'
          · exact Or.inr (Or.inl h')
          · exact Or.inr (Or.inr (Or.inl h'))
        · split at h
          · exact Or.inr (Or.inr (Or.inl (pattern3Result_err h)))
          · exact Or.inr (Or.inr (Or.inr (ParseResult.err.inj h).symm))
  · intro s hs
    simp only [parseLineItem]
    rw [if_pos hs]

/-- Closed instance of `parseLineItem_taxonomy`: the whitespace-only input
`"   "` trims to nothing and the parser answers with the empty-input
error. -/
theorem parseLineItem_taxonomy_witness :
    trimChars "   ".data = [] ∧
    parseLineItem "   " = .err "Input cannot be empty" :=
  ⟨by decide, parseLineItem_taxonomy.2.2 "   " (by decide)⟩


lemma max_profit_if (p : ℚ) : (if p > 0 then p else 0) = max p 0 := by
  by_cases h : p > 0
  · rw [if_pos h, max_eq_left h.le]
  · rw [if_neg h, max_eq_right (not_lt.mp h)]

lemma max_loss_if (p : ℚ) : (if p > 0 then 0 else |p|) = max (-p) 0 := by
  by_cases h : p > 0
  · rw [if_pos h, max_eq_right (by linarith)]
  · have hp : p ≤ 0 := not_lt.mp h
    rw [if_neg h, abs_of_nonpos hp, max_eq_left (by linarith)]

lemma summary_foldl (rows : List (Flip × FlipTotals)) :
    ∀ acc : SummaryAcc,
      rows.foldl summaryStep acc =
        { totalSales := acc.totalSales + (rows.map (fun r => r.1.sell_price.getD 0)).sum
          totalPurchases := acc.totalPurchases + (rows.map (fun r => r.1.buy_price)).sum
          totalExpenses := acc.totalExpenses + (rows.map (fun r => r.2.totalCost)).sum
          totalProfit := acc.totalProfit + (rows.map (fun r => max r.2.profit 0)).sum
          totalLoss := acc.totalLoss + (rows.map (fun r => max (-r.2.profit) 0)).sum } := by
  induction rows with
  | nil => intro acc; simp
  | cons r rest ih =>
    intro acc
    rw [List.foldl_cons, ih]
    by_cases h : r.2.profit > 0
    · simp only [summaryStep, if_pos h, List.map_cons, List.sum_cons,
        max_eq_left h.le, max_eq_right (by linarith : -r.2.profit ≤ 0)]
      simp only [SummaryAcc.mk.injEq]
      refine ⟨by ring, by ring, by ring, by ring, by ring⟩
    · have hp : r.2.profit ≤ 0 := not_lt.mp h
      simp only [summaryStep, if_neg h, List.map_cons, List.sum_cons,
        max_eq_right hp, abs_of_nonpos hp, max_eq_left (by linarith : (0:ℚ) ≤ -r.2.profit)]
      simp only [SummaryAcc.mk.injEq]
      refine ⟨by ring, by ring, by ring, by ring, by ring⟩

/-- Claim C8: the aggregate tax summary is total sales = sum of sell prices
(0 when unset), total purchases = sum of buy prices, total expenses = sum of
per-flip total costs, total profit = sum of `max(profit, 0)`, total loss =
sum of `max(-profit, 0)`, and net gain/loss = total profit minus total loss;
in particular profits `[100, -50, 30]` give profit 130, loss 50 and net
80. -/
theorem exportCompleteTaxReport_summary_spec :
    (∀ rows : List (Flip × FlipTotals),
      exportCompleteTaxReportSummary rows =
        { totalFlips := rows.length
          totalProfit := (rows.map (fun r => max r.2.profit 0)).sum
          totalLoss := (rows.map (fun r => max (-r.2.profit) 0)).sum
          netGainLoss := (rows.map (fun r => max r.2.profit 0)).sum -
            (rows.map (fun r => max (-r.2.profit) 0)).sum
          totalExpenses := (rows.map (fun r => r.2.totalCost)).sum
          totalSales := (rows.map (fun r => r.1.sell_price.getD 0)).sum
          totalPurchases := (rows.map (fun r => r.1.buy_price)).sum }) ∧
    ((exportCompleteTaxReportSummary
        [(⟨1, none, none, none, none, none, 1, none, none, "", ""⟩, ⟨0, 100, 0⟩),
         (⟨2, none, none, none, none, none, 1, none, none, "", ""⟩, ⟨0, -50, 0⟩),
         (⟨3, none, none, none, none, none, 1, none, none, "", ""⟩, ⟨0, 30, 0⟩)]).totalProfit
        = 130 ∧
      (exportCompleteTaxReportSummary
        [(⟨1, none, none, none, none, none, 1, none, none, "", ""⟩, ⟨0, 100, 0⟩),
         (⟨2, none, none, none, none, none, 1, none, none, "", ""⟩, ⟨0, -50, 0⟩),
         (⟨3, none, none, none, none, none, 1, none, none, "", ""⟩, ⟨0, 30, 0⟩)]).totalLoss
        = 50 ∧
      (exportCompleteTaxReportSummary
        [(⟨1, none, none, none, none, none, 1, none, none, "", ""⟩, ⟨0, 100, 0⟩),
         (⟨2, none, none, none, none, none, 1, none, none, "", ""⟩, ⟨0, -50, 0⟩),
         (⟨3, none, none, none, none, none, 1, none, none, "", ""⟩, ⟨0, 30, 0⟩)]).netGainLoss
        = 80) := by
  constructor
  · intro rows
    unfold exportCompleteTaxReportSummary
    rw [summary_foldl]
    simp [AllFlipsSummary.mk.injEq]
  · refine ⟨?_, ?_, ?_⟩ <;> with_unfolding_all decide

lemma sumAmounts_eq (items : List LineItem) :
    sumAmounts items = (items.map LineItem.amount).sum := by
  rw [sumAmounts, foldl_add_amount, zero_add]

/-- Claim C7: in the tax report's itemized listing and expense summary,
grouping is by the four fixed categories in order parts, labor, fees, misc
followed by the uncategorized items; a category's subtotal line is printed
exactly when the category has at least one item and then shows the sum of the
category's item amounts; the items printed for a category are exactly the
input items of that category, in input order (an order-preserving
subsequence); and on the spec example `[{A, parts}, {B, labor}, {C, parts}]`
the parts subtotal is `A + C` with A printed before C. -/
theorem taxReport_category_grouping :
    (∀ (lineItems : List LineItem) (c : Cat),
      categorySummaryLine lineItems c =
        (if categoryFilter c lineItems = [] then ""
         else capFirst (catName c) ++ ": " ++
           formatCurrency (((categoryFilter c lineItems).map LineItem.amount).sum) ++
           "\n")) ∧
    (∀ (lineItems : List LineItem) (c : Cat),
      categoryDetailBlock lineItems c =
        String.join ((categoryFilter c lineItems).map (detailLine (catName c))) ∧
      (categoryFilter c lineItems).Sublist lineItems) ∧
    (∀ lineItems : List LineItem,
      String.join (taxCategories.map (categoryDetailBlock lineItems)) =
        categoryDetailBlock lineItems .parts ++ categoryDetailBlock lineItems .labor ++
        categoryDetailBlock lineItems .fees ++ categoryDetailBlock lineItems .misc ∧
      String.join (taxCategories.map (categorySummaryLine lineItems)) =
        categorySummaryLine lineItems .parts ++ categorySummaryLine lineItems .labor ++
        categorySummaryLine lineItems .fees ++ categorySummaryLine lineItems .misc) ∧
    (categorySummaryLine
        [⟨1, 1, "A", 10, some .parts, none, "", ""⟩,
         ⟨2, 1, "B", 5, some .labor, none, "", ""⟩,
         ⟨3, 1, "C", 7, some .parts, none, "", ""⟩] .parts =
      "Parts: " ++ formatCurrency (10 + 7) ++ "\n" ∧
     categoryDetailBlock
        [⟨1, 1, "A", 10, some .parts, none, "", ""⟩,
         ⟨2, 1, "B", 5, some .labor, none, "", ""⟩,
         ⟨3, 1, "C", 7, some .parts, none, "", ""⟩] .parts =
      detailLine "parts" ⟨1, 1, "A", 10, some .parts, none, "", ""⟩ ++
        detailLine "parts" ⟨3, 1, "C", 7, some .parts, none, "", ""⟩) := by
  refine ⟨?_, ?_, ?_, ?_, ?_⟩
  · intro lineItems c
    unfold categorySummaryLine
    by_cases h : categoryFilter c lineItems = []
    · simp [h]
    · rw [if_pos (by simpa [List.length_pos] using h), if_neg h, sumAmounts_eq]
  · intro lineItems c
    constructor
    · unfold categoryDetailBlock
      by_cases h : categoryFilter c lineItems = []
      · simp [h, String.join]
      · rw [if_pos (by simpa [List.length_pos] using h)]
    · exact List.filter_sublist lineItems
  · intro lineItems
    constructor <;> simp [taxCategories, String.join, String.append_assoc]
  · with_unfolding_all decide
  · with_unfolding_all decide

set_option maxHeartbeats 1000000 in
/-- Counterexample to claim C6 as stated: the report text embeds the
generation date read from the clock, so two generations from the same flip,
line items and totals — at two different clock readings — give different
bytes.  The generators are therefore not functions of the already-computed
inputs alone. -/
theorem generateTaxExportPDF_clock_dependent :
    generateTaxExportPDF
      ⟨⟨1, none, none, none, none, none, 1000, none, none, "2025-01-01", "2025-01-01"⟩,
        [], ⟨0, 0, 0⟩, 2025⟩ "1/1/2025" ≠
    generateTaxExportPDF
      ⟨⟨1, none, none, none, none, none, 1000, none, none, "2025-01-01", "2025-01-01"⟩,
        [], ⟨0, 0, 0⟩, 2025⟩ "2/1/2025" := by
  with_unfolding_all decide

/-- Claim C6 (amended): each report generator is a deterministic pure
function of its already-computed inputs together with the generation date it
reads from the clock — two generations from equal data and an equal clock
reading yield byte-identical text. -/
theorem report_generators_deterministic :
    (∀ (x y : TaxExportData) (d d' : String), x = y → d = d' →
      generateTaxExportPDF x d = generateTaxExportPDF y d') ∧
    (∀ (x y : AllFlipsTaxData) (d d' : String), x = y → d = d' →
      generateAllFlipsTaxReport x d = generateAllFlipsTaxReport y d') :=
  ⟨fun _ _ _ _ hx hd => hx ▸ hd ▸ rfl, fun _ _ _ _ hx hd => hx ▸ hd ▸ rfl⟩

/-- Witness for claim C6 (amended): both generators applied twice to one
concrete input give the same text. -/
theorem report_generators_deterministic_witness :
    generateTaxExportPDF
      ⟨⟨1, none, none, none, none, none, 1000, none, none, "2025-01-01", "2025-01-01"⟩,
        [], ⟨0, 0, 0⟩, 2025⟩ "1/1/2025" =
    generateTaxExportPDF
      ⟨⟨1, none, none, none, none, none, 1000, none, none, "2025-01-01", "2025-01-01"⟩,
        [], ⟨0, 0, 0⟩, 2025⟩ "1/1/2025" ∧
    generateAllFlipsTaxReport ⟨[], 2025, ⟨0, 0, 0, 0, 0, 0, 0⟩⟩ "1/1/2025" =
    generateAllFlipsTaxReport ⟨[], 2025, ⟨0, 0, 0, 0, 0, 0, 0⟩⟩ "1/1/2025" :=
  ⟨report_generators_deterministic.1 _ _ _ _ rfl rfl,
    report_generators_deterministic.2 _ _ _ _ rfl rfl⟩

lemma find_map_keyfix {g : String × ℚ → String × ℚ} (hg : ∀ p, (g p).1 = p.1)
    (m : List (String × ℚ)) (k : String) :
    (m.map g).find? (fun p => p.1 = k) = (m.find? (fun p => p.1 = k)).map g := by
  induction m with
  | nil => rfl
  | cons a t ih =>
    by_cases h : a.1 = k
    · rw [List.map_cons, List.find?_cons_of_pos _ (by simp [hg, h]),
        List.find?_cons_of_pos _ (by simp [h])]
      rfl
    · rw [List.map_cons, List.find?_cons_of_neg _ (by simp [hg, h]),
        List.find?_cons_of_neg _ (by simp [h]), ih]

lemma upsert_find_other {m : List (String × ℚ)} {k k' : String} {v : ℚ}
    (hne : k' ≠ k) :
    (upsertExpense m k v).find? (fun p => p.1 = k') =
      m.find? (fun p => p.1 = k') := by
  unfold upsertExpense
  by_cases h : m.any (fun p => p.1 = k)
  · rw [if_pos h,
      find_map_keyfix (fun p => by by_cases hp : p.1 = k <;> simp [hp])]
    cases hf : m.find? (fun p => p.1 = k') with
    | none => rfl
    | some a =>
      have ha : a.1 = k' := by simpa using List.find?_some hf
      simp [Option.map_some, ha, hne]
  · rw [if_neg h, List.find?_append]
    have h1 : ([(k, v)].find? (fun p => p.1 = k')) = none := by
      simp
      exact fun hh => hne hh.symm
    rw [h1]
    cases m.find? (fun p => p.1 = k') <;> rfl

lemma upsert_find_self (m : List (String × ℚ)) (k : String) (v : ℚ) :
    (upsertExpense m k v).find? (fun p => p.1 = k) =
      some (k, ((m.find? (fun p => p.1 = k)).map Prod.snd).getD 0 + v) := by
  unfold upsertExpense
  by_cases h : m.any (fun p => p.1 = k)
  · rw [if_pos h,
      find_map_keyfix (fun p => by by_cases hp : p.1 = k <;> simp [hp])]
    have hsome : (m.find? (fun p => p.1 = k)).isSome := by
      rw [List.find?_isSome]
      simpa using List.any_eq_true.mp h
    obtain ⟨a, ha⟩ := Option.isSome_iff_exists.mp hsome
    have hk : a.1 = k := by simpa using List.find?_some ha
    rw [ha]
    simp [hk]
  · have hnone : m.find? (fun p => p.1 = k) = none := by
      cases hf : m.find? (fun p => p.1 = k) with
      | none => rfl
      | some a =>
        exact absurd
          (List.any_eq_true.mpr
            ⟨a, List.mem_of_find?_eq_some hf, List.find?_some hf⟩) h
    rw [if_neg h, List.find?_append, hnone]
    simp

lemma upsert_keys (m : List (String × ℚ)) (k : String) (v : ℚ) :
    (upsertExpense m k v).map Prod.fst =
      if k ∈ m.map Prod.fst then m.map Prod.fst else m.map Prod.fst ++ [k] := by
  unfold upsertExpense
  by_cases h : m.any (fun p => p.1 = k)
  · have hk : k ∈ m.map Prod.fst := by
      rcases List.any_eq_true.mp h with ⟨p, hp, hpk⟩
      exact List.mem_map.mpr ⟨p, hp, by simpa using hpk⟩
    rw [if_pos h, if_pos hk, List.map_map]
    apply List.map_congr_left
    intro a _
    by_cases ha : a.1 = k <;> simp [ha]
  · have hk : k ∉ m.map Prod.fst := by
      intro hmem
      rcases List.mem_map.mp hmem with ⟨p, hp, hpk⟩
      exact h (List.any_eq_true.mpr ⟨p, hp, by simp [hpk]⟩)
    rw [if_neg h, if_neg hk, List.map_append]
    rfl

lemma itemsFold_find (items : List LineItem) (k : String) :
    ∀ m : List (String × ℚ),
      ((items.foldl (fun m item => upsertExpense m (catKey item) item.amount) m).find?
          (fun p => p.1 = k)) =
        if (items.filter (fun i => catKey i = k)) = [] then
          m.find? (fun p => p.1 = k)
        else
          some (k, ((m.find? (fun p => p.1 = k)).map Prod.snd).getD 0 +
            ((items.filter (fun i => catKey i = k)).map LineItem.amount).sum) := by
  induction items with
  | nil => intro m; simp
  | cons i rest ih =>
    intro m
    rw [List.foldl_cons]
    by_cases hik : catKey i = k
    · subst hik
      rw [ih]
      have hfc : ((i :: rest).filter (fun x => catKey x = catKey i)) =
          i :: rest.filter (fun x => catKey x = catKey i) := by
        rw [List.filter_cons, if_pos (by simp)]
      by_cases hr : rest.filter (fun x => catKey x = catKey i) = []
      · rw [if_pos hr, if_neg (by simp [hfc]), upsert_find_self, hfc, hr]
        simp
      · rw [if_neg hr, if_neg (by simp [hfc]), upsert_find_self, hfc]
        simp [add_assoc]
    · have hfc : ((i :: rest).filter (fun x => catKey x = k)) =
          rest.filter (fun x => catKey x = k) := by
        rw [List.filter_cons, if_neg (by simp [hik])]
      rw [ih, upsert_find_other (fun hh => hik hh.symm), hfc]

lemma dedupFirstAux_congr :
    ∀ (l s₁ s₂ : List String),
      (∀ x, x ∈ s₁ ↔ x ∈ s₂) → dedupFirstAux s₁ l = dedupFirstAux s₂ l := by
  intro l
  induction l with
  | nil => intro s₁ s₂ _; rfl
  | cons a t ih =>
    intro s₁ s₂ h
    unfold dedupFirstAux
    by_cases ha : a ∈ s₁
    · rw [if_pos ha, if_pos ((h a).mp ha), ih _ _ h]
    · rw [if_neg ha, if_neg (fun hh => ha ((h a).mpr hh))]
      congr 1
      exact ih _ _ (fun x => by simp [h x])

lemma itemsFold_keys (items : List LineItem) :
    ∀ m : List (String × ℚ),
      ((items.foldl (fun m item => upsertExpense m (catKey item) item.amount) m).map
          Prod.fst) =
        m.map Prod.fst ++ dedupFirstAux (m.map Prod.fst) (items.map catKey) := by
  induction items with
  | nil => intro m; simp [dedupFirstAux]
  | cons i rest ih =>
    intro m
    rw [List.foldl_cons, ih, upsert_keys, List.map_cons]
    by_cases hk : catKey i ∈ m.map Prod.fst
    · rw [if_pos hk]
      conv_rhs => rw [dedupFirstAux]
      rw [if_pos hk]
    · rw [if_neg hk]
      conv_rhs => rw [dedupFirstAux]
      rw [if_neg hk]
      rw [dedupFirstAux_congr (rest.map catKey) _
        (catKey i :: m.map Prod.fst) (fun x => by simp [or_comm])]
      simp [List.append_assoc]

lemma allExpensesMap_eq_flat (flips : List FlipBundle) :
    allExpensesMap flips =
      ((flips.map FlipBundle.lineItems).flatten).foldl
        (fun m item => upsertExpense m (catKey item) item.amount) [] := by
  unfold allExpensesMap
  suffices h : ∀ m : List (String × ℚ),
      flips.foldl
        (fun m b =>
          b.lineItems.foldl (fun m item => upsertExpense m (catKey item) item.amount) m)
        m =
      ((flips.map FlipBundle.lineItems).flatten).foldl
        (fun m item => upsertExpense m (catKey item) item.amount) m from h []
  induction flips with
  | nil => intro m; rfl
  | cons b rest ih =>
    intro m
    rw [List.foldl_cons, ih, List.map_cons, List.flatten_cons, List.foldl_append]

/-- Claim C10: in the aggregate report's combined expense summary, items with
no category merge into the `misc` bucket; for every key the recorded grand
total is the sum of the amounts of all items (across all flips, in order)
whose key — category, or `misc` when unset — equals it, a key being present
exactly when some item carries it; and the keys appear in order of first
encounter in the input, not in the fixed category order, as the concrete
labor-before-parts input shows. -/
theorem allFlips_combined_summary_spec :
    (∀ (flips : List FlipBundle) (k : String),
      (allExpensesMap flips).find? (fun p => p.1 = k) =
        (if (((flips.map FlipBundle.lineItems).flatten).filter
              (fun i => catKey i = k)) = [] then none
         else
           some (k,
             ((((flips.map FlipBundle.lineItems).flatten).filter
                (fun i => catKey i = k)).map LineItem.amount).sum))) ∧
    (∀ flips : List FlipBundle,
      (allExpensesMap flips).map Prod.fst =
        dedupFirstAux [] (((flips.map FlipBundle.lineItems).flatten).map catKey)) ∧
    (allExpensesMap
        [⟨⟨1, none, none, none, none, none, 1, none, none, "", ""⟩,
          [⟨1, 1, "B", 5, some .labor, none, "", ""⟩,
           ⟨2, 1, "A", 10, none, none, "", ""⟩], ⟨0, 0, 0⟩⟩] =
      [("labor", 5), ("misc", 10)]) ∧
    (combinedSummarySection
        [⟨⟨1, none, none, none, none, none, 1, none, none, "", ""⟩,
          [⟨1, 1, "B", 5, some .labor, none, "", ""⟩,
           ⟨2, 1, "A", 10, none, none, "", ""⟩], ⟨0, 0, 0⟩⟩] =
      "\nCOMBINED EXPENSE SUMMARY BY CATEGORY:\n" ++
        ("Labor: " ++ formatCurrency 5 ++ "\n") ++
        ("Misc: " ++ formatCurrency 10 ++ "\n")) := by
  refine ⟨?_, ?_, ?_, ?_⟩
  · intro flips k
    rw [allExpensesMap_eq_flat, itemsFold_find]
    by_cases h : (((flips.map FlipBundle.lineItems).flatten).filter
        (fun i => catKey i = k)) = []
    · rw [if_pos h, if_pos h]
      rfl
    · rw [if_neg h, if_neg h]
      simp
  · intro flips
    rw [allExpensesMap_eq_flat, itemsFold_keys]
    simp
  · with_unfolding_all decide
  · with_unfolding_all decide

lemma firstSome_cons_none {α β : Type} {f : α → Option β} {a : α} {l : List α}
    (h : f a = none) : firstSome (a :: l) f = firstSome l f := by
  rw [firstSome, h]

lemma firstSome_cons_some {α β : Type} {f : α → Option β} {a : α} {l : List α}
    {b : β} (h : f a = some b) : firstSome (a :: l) f = some b := by
  rw [firstSome, h]

lemma firstSome_eq_some {α β : Type} {l : List α} {f : α → Option β} {b : β}
    (h : firstSome l f = some b) : ∃ a ∈ l, f a = some b := by
  induction l with
  | nil => cases h
  | cons a t ih =>
    rw [firstSome] at h
    split at h
    next c hfa =>
      exact ⟨a, List.mem_cons_self a t, by rw [hfa, h]⟩
    next =>
      obtain ⟨x, hx, hfx⟩ := ih h
      exact ⟨x, List.mem_cons_of_mem a hx, hfx⟩

lemma mem_starSplits_suffix {p : Char → Bool} {s x : List Char}
    (h : x ∈ starSplits p s) : x <:+ s := by
  unfold starSplits at h
  rcases List.mem_map.mp h with ⟨i, _, rfl⟩
  exact List.drop_suffix _ _

lemma mem_plusSplits_suffix {p : Char → Bool} {s : List Char}
    {g : List Char × List Char} (h : g ∈ plusSplits p s) : g.2 <:+ s := by
  unfold plusSplits at h
  rcases List.mem_map.mp h with ⟨i, _, rfl⟩
  exact List.drop_suffix _ _

lemma matchPattern1_dash {l : List Char} {g : List Char × List Char}
    (h : matchPattern1 l = some g) : '-' ∈ l := by
  unfold matchPattern1 at h
  obtain ⟨s1, hs1, h⟩ := firstSome_eq_some h
  have hsuf1 : s1 <:+ l := by
    split at hs1
    · rcases List.mem_cons.mp hs1 with rfl | hs1
      · exact List.suffix_cons _ _
      · rcases List.mem_cons.mp hs1 with rfl | hs1
        · exact List.suffix_refl _
        · cases hs1
    · rcases List.mem_cons.mp hs1 with rfl | hs1
      · exact List.suffix_refl _
      · cases hs1
  obtain ⟨s2, hs2, h⟩ := firstSome_eq_some h
  have hsuf2 := (mem_starSplits_suffix hs2).trans hsuf1
  obtain ⟨gg, hgg, h⟩ := firstSome_eq_some h
  have hsuf3 := (mem_plusSplits_suffix hgg).trans hsuf2
  obtain ⟨s4, hs4, h⟩ := firstSome_eq_some h
  have hsuf4 := (mem_starSplits_suffix hs4).trans hsuf3
  split at h
  next s5 =>
    exact hsuf4.subset (List.mem_cons_self '-' s5)
  next =>
    cases h

lemma matchPattern1_none_of_no_dash {l : List Char} (h : '-' ∉ l) :
    matchPattern1 l = none := by
  cases hm : matchPattern1 l with
  | none => rfl
  | some g => exact absurd (matchPattern1_dash hm) h

lemma dropWhile_eq_self_of_all_neg {p : Char → Bool} {l : List Char}
    (h : ∀ c ∈ l, p c = false) : l.dropWhile p = l := by
  cases l with
  | nil => rfl
  | cons a t =>
    rw [List.dropWhile_cons, if_neg (by simp [h a (List.mem_cons_self a t)])]

lemma trimChars_eq_self_of_no_space {l : List Char}
    (h : ∀ c ∈ l, isSpaceChar c = false) : trimChars l = l := by
  unfold trimChars
  rw [dropWhile_eq_self_of_all_neg h,
    dropWhile_eq_self_of_all_neg (fun c hc => h c (List.mem_reverse.mp hc)),
    List.reverse_reverse]

lemma foldl_replicate_zero_digit (n : ℕ) :
    ∀ a : ℕ, (List.replicate n (0 : Fin 10)).foldl (fun a d => 10 * a + d.val) a =
      10 ^ n * a := by
  induction n with
  | zero => intro a; simp
  | succ k ih =>
    intro a
    rw [List.replicate_succ, List.foldl_cons]
    have h0 : (10 * a + (0 : Fin 10).val) = 10 * a := by simp
    rw [h0, ih]
    ring

lemma natOfDigits_one_zeros (n : ℕ) :
    natOfDigits ((1 : Fin 10) :: List.replicate n 0) = 10 ^ n := by
  unfold natOfDigits
  rw [List.foldl_cons]
  have h1 : (10 * 0 + ((1 : Fin 10)).val) = 1 := by simp
  rw [h1, foldl_replicate_zero_digit, mul_one]

lemma round2_pow_ten (n : ℕ) : round2 ((10 : ℚ) ^ n) = (10 : ℚ) ^ n := by
  unfold round2
  rw [show (10 : ℚ) ^ n * 100 + 1 / 2 = ((10 ^ n * 100 : ℤ) : ℚ) + 1 / 2 from by
      push_cast; ring,
    Int.floor_int_add, show ⌊(1 / 2 : ℚ)⌋ = 0 from by norm_num]
  push_cast
  field_simp

lemma overflowInput_no_dash (n : ℕ) : '-' ∉ overflowInput n := by
  unfold overflowInput
  intro h
  rcases List.mem_append.mp h with h | h
  · rcases List.mem_cons.mp h with h | h
    · exact absurd h (by decide)
    · exact absurd (List.eq_of_mem_replicate h) (by decide)
  · exact absurd h (by decide)

lemma overflowInput_trim (n : ℕ) : trimChars (overflowInput n) = overflowInput n := by
  have h1 : (overflowInput n).dropWhile isSpaceChar = overflowInput n := by
    unfold overflowInput
    rw [List.cons_append, List.dropWhile_cons,
      if_neg (by simp [(digitChar_facts 1).2.2.2.1])]
  have h2 : (overflowInput n).reverse =
      'x' :: ' ' :: (digitChar 1 :: List.replicate n (digitChar 0)).reverse := by
    unfold overflowInput
    rw [List.reverse_append]
    rfl
  have h3 : ((overflowInput n).reverse).dropWhile isSpaceChar =
      (overflowInput n).reverse := by
    rw [h2, List.dropWhile_cons, if_neg (by decide)]
  unfold trimChars
  rw [h1, h3, List.reverse_reverse]

lemma overflowDigits_class1 (n : ℕ) :
    ∀ c ∈ digitChar 1 :: List.replicate n (digitChar 0), isClass1 c = true := by
  intro c hc
  rcases List.mem_cons.mp hc with rfl | hc
  · decide
  · rw [List.eq_of_mem_replicate hc]; decide

lemma overflowDigits_no_space (n : ℕ) :
    ∀ c ∈ digitChar 1 :: List.replicate n (digitChar 0), isSpaceChar c = false := by
  intro c hc
  rcases List.mem_cons.mp hc with rfl | hc
  · decide
  · rw [List.eq_of_mem_replicate hc]; decide

lemma matchPattern2_overflow (n : ℕ) :
    matchPattern2 (overflowInput n) =
      some (digitChar 1 :: List.replicate n (digitChar 0), ['x']) := by
  have hlenD : (digitChar 1 :: List.replicate n (digitChar 0)).length = n + 1 := by
    simp
  have htake : (overflowInput n).takeWhile isClass1 =
      (digitChar 1 :: List.replicate n (digitChar 0)) ++ [' '] := by
    unfold overflowInput
    rw [takeWhile_append_of_all (overflowDigits_class1 n)]
    congr 1
  have hdropD : (overflowInput n).drop (n + 1) = " x".data := by
    unfold overflowInput
    exact List.drop_left' hlenD
  have hdrop2 : (overflowInput n).drop (n + 2) = ['x'] := by
    rw [show n + 2 = (n + 1) + 1 from rfl, ← List.drop_drop, hdropD]
    rfl
  have htakeD : (overflowInput n).take (n + 1) =
      digitChar 1 :: List.replicate n (digitChar 0) := by
    unfold overflowInput
    exact List.take_left' hlenD
  have hmlen : ((overflowInput n).takeWhile isClass1).length = n + 2 := by
    rw [htake]
    simp
  have hps : plusSplits isClass1 (overflowInput n) =
      (List.range (n + 2)).map
        (fun i => ((overflowInput n).take (n + 2 - i),
          (overflowInput n).drop (n + 2 - i))) := by
    unfold plusSplits
    rw [hmlen]
  unfold matchPattern2
  rw [hps, show n + 2 = (n + 1) + 1 from rfl, List.range_succ_eq_map,
    List.range_succ_eq_map]
  simp only [List.map_cons, List.map_map]
  rw [firstSome_cons_none ?h0, firstSome_cons_some ?h1]
  case h0 =>
    dsimp only
    rw [Nat.sub_zero, hdrop2,
      show plusSplits isSpaceChar ['x'] = [] from by decide]
    rfl
  case h1 =>
    dsimp only
    rw [show (n + 1) + 1 - Nat.succ 0 = n + 1 from rfl, htakeD, hdropD,
      show plusSplits isSpaceChar " x".data = [([' '], ['x'])] from by decide]
    rw [firstSome_cons_some ?h2]
    case h2 =>
      dsimp only
      rw [if_pos ⟨by decide, by decide⟩]

/-- Claim C5 (code bug): the only guards before a success are a non-empty
trimmed title and `amount === null || amount <= 0` — nothing bounds an
accepted amount from above, so "finite" is not enforced.  For every `n` the
input whose amount segment is a `1` followed by `n` zeros (title `x`) is
accepted with amount `10 ^ n`, hence accepted amounts are unbounded; for
`n ≥ 309` JavaScript's `parseFloat` reads that literal as `Infinity`, which
passes the `amount <= 0` guard, so the program returns a success with a
non-finite amount. -/
theorem parseLineItem_overflow_unguarded :
    (∀ n : ℕ, parseLineItem (String.mk (overflowInput n)) =
      .ok ((10 : ℚ) ^ n) "x") ∧
    (∀ M : ℚ, ∃ (s : String) (a : ℚ), parseLineItem s = .ok a "x" ∧ M < a) := by
  have main : ∀ n : ℕ, parseLineItem (String.mk (overflowInput n)) =
      .ok ((10 : ℚ) ^ n) "x" := by
    intro n
    have htrim' : trimChars (String.mk (overflowInput n)).data = overflowInput n :=
      overflowInput_trim n
    have hne : overflowInput n ≠ [] := by
      unfold overflowInput
      simp
    have hm1 : matchPattern1 (overflowInput n) = none :=
      matchPattern1_none_of_no_dash (overflowInput_no_dash n)
    have hm2 := matchPattern2_overflow n
    have htrimD : trimChars (digitChar 1 :: List.replicate n (digitChar 0)) =
        digitChar 1 :: List.replicate n (digitChar 0) :=
      trimChars_eq_self_of_no_space (overflowDigits_no_space n)
    have hrender :
        renderExpr ⟨⟨⟨(1 : Fin 10) :: List.replicate n 0, none⟩, []⟩, []⟩ =
          digitChar 1 :: List.replicate n (digitChar 0) := by
      simp [renderExpr, renderTerm, renderLit, List.map_replicate]
    have hwf : exprWF ⟨⟨⟨(1 : Fin 10) :: List.replicate n 0, none⟩, []⟩, []⟩ := by
      refine ⟨⟨rfl, ?_⟩, ?_⟩
      · intro p hp
        cases hp
      · intro p hp
        cases hp
    have hval : exprVal ⟨⟨⟨(1 : Fin 10) :: List.replicate n 0, none⟩, []⟩, []⟩ =
        (10 : ℚ) ^ n := by
      simp [exprVal, termVal, litVal, natOfDigits_one_zeros,
        show natOfDigits [] = 0 from rfl]
    have heval : evaluateMath (digitChar 1 :: List.replicate n (digitChar 0)) =
        some ((10 : ℚ) ^ n) := by
      rw [← hrender, evaluateMath_renderExpr, evalExprOpt_wf hwf, hval]
      simp only [Option.map_some']
      rw [round2_pow_ten]
    simp only [parseLineItem]
    rw [htrim', if_neg hne, hm1, hm2]
    show patternResult (digitChar 1 :: List.replicate n (digitChar 0), ['x']) =
      .ok ((10 : ℚ) ^ n) "x"
    simp only [patternResult]
    rw [htrimD, show trimChars ['x'] = ['x'] from by decide,
      if_neg (by decide : ¬(['x'] : List Char) = []), heval]
    show (if (10 : ℚ) ^ n ≤ 0 then ParseResult.err "Invalid amount"
      else .ok ((10 : ℚ) ^ n) (String.mk ['x'])) = .ok ((10 : ℚ) ^ n) "x"
    rw [if_neg (not_le.mpr (pow_pos (by norm_num) n))]
  refine ⟨main, ?_⟩
  intro M
  obtain ⟨n, hn⟩ := pow_unbounded_of_one_lt M (by norm_num : (1 : ℚ) < 10)
  exact ⟨String.mk (overflowInput n), (10 : ℚ) ^ n, main n, hn⟩
